import Mathlib

/-!
# NexDome Beaver dome controller: command protocol and poll tick

A shallow embedding of `src/beaver_dome.cpp` (class `Beaver`, an INDI dome
driver).  The serial line is an explicit deterministic machine (`Port`), every
call of `tty_write_string` and `tty_nread_section` is recorded in a trace, the
C++ `double` values are rationals, and the driver state read and written by the
modelled member functions is the record `Dome`.
-/

namespace Beaver

/-! ## Bytes and the response pattern -/

/-- A C string or byte buffer, one `Char` per byte. -/
abbrev Bytes := List Char

/-- The class `\d` of the pattern: the ASCII decimal digits. -/
def isDigit (c : Char) : Bool := decide (48 ≤ c.toNat) && decide (c.toNat ≤ 57)

/-- The characters the pattern's `.` refuses (ECMAScript grammar, narrow chars). -/
def isLineTerminator (c : Char) : Bool := c == '\n' || c == '\r'

/-- Greedy `(\.\d*)*`: called where the preceding greedy `\d+` stopped, it takes
dots and digits as long as they come. -/
def dotGroups : Bytes → Bytes
  | [] => []
  | c :: cs => if c == '.' || isDigit c then c :: dotGroups cs else []

/-- Greedy `\d*`. -/
def digitRun : Bytes → Bytes
  | [] => []
  | c :: cs => if isDigit c then c :: digitRun cs else []

/-- What is left of the input after `digitRun`. -/
def afterDigits : Bytes → Bytes
  | [] => []
  | c :: cs => if isDigit c then afterDigits cs else c :: cs

/-- Capture group 1, `(\d+(\.\d*)*)`, matched at the head of the input: `none`
when the input does not start with a digit.  Nothing follows the group in the
pattern, so the greedy choice is never undone. -/
def matchNumber (s : Bytes) : Option Bytes :=
  match digitRun s with
  | [] => none
  | d :: ds => some ((d :: ds) ++ dotGroups (afterDigits s))

/-- The pattern `.*:((\d+(\.\d*)*))` matched with its start fixed at the head of
the input, by backtracking: the greedy `.*` first takes one more character (never
a line terminator) and only when the rest cannot match does it stop here, where a
colon and the number must follow.  Returns capture group 1. -/
def matchHere : Bytes → Option Bytes
  | [] => none
  | c :: cs =>
    match (if isLineTerminator c then none else matchHere cs) with
    | some tok => some tok
    | none => if c == ':' then matchNumber cs else none

/-- The call `std::regex_search(input, match, rgx)` followed by `match.str(1)`:
the start positions are tried from left to right, the first that matches wins. -/
def regexSearch : Bytes → Option Bytes
  | [] => none
  | c :: cs =>
    match matchHere (c :: cs) with
    | some tok => some tok
    | none => regexSearch cs

/-! ## `std::stof` -/

/-- Value of a digit character. -/
def digitVal (c : Char) : Nat := c.toNat - 48

/-- Value of a string of decimal digits. -/
def decimalNat (s : Bytes) : Nat := s.foldl (fun n c => 10 * n + digitVal c) 0

/-- The quotient `a / b` rounded to the nearest natural number, ties to even. -/
def roundHalfEven (a b : Nat) : Nat :=
  if 2 * (a % b) < b then a / b
  else if b < 2 * (a % b) then a / b + 1
  else a / b + (a / b) % 2

/-- Number of halvings that bring `n` below 2, at most `k` of them: with `k = n`
it is the position of the leading bit of `n`, and `0` for `n < 2`. -/
def leadingBit : Nat → Nat → Nat
  | 0, _ => 0
  | k + 1, n => if n < 2 then 0 else leadingBit k (n / 2) + 1

/-- The binary exponent of `a / b`, the integer `e` with `2 ^ e ≤ a / b < 2 ^ (e + 1)`,
for `2 ^ (-150) ≤ a / b`; below that the result is `-150`. -/
def binaryExponent (a b : Nat) : Int :=
  (leadingBit (a * 2 ^ 150 / b) (a * 2 ^ 150 / b) : Int) - 150

/-- The significand of `a / b` in units of `2 ^ t`, rounded to nearest even. -/
def significand (a b : Nat) (t : Int) : Nat :=
  if 0 ≤ t then roundHalfEven a (b * 2 ^ t.toNat) else roundHalfEven (a * 2 ^ (-t).toNat) b

/-- Conversion of the non-negative quotient `a / b` to IEEE binary32 (24-bit
significand, round to nearest even) as `strtof` does it, the result widened to
`double` without change.  `none` is the range error `ERANGE`: the rounded value
reaches `2 ^ 128` (overflow), or the value is positive and below the least normal
number `2 ^ (-126)` (underflow, which the C standard lets the implementation
report and glibc reports for its inexact tiny results). -/
def toBinary32 (a b : Nat) : Option ℚ :=
  if a = 0 then some 0
  else if binaryExponent a b < -126 then none
  else if 2 ^ 128 ≤
      (significand a b (binaryExponent a b - 23) : ℚ) * 2 ^ (binaryExponent a b - 23) then none
  else some ((significand a b (binaryExponent a b - 23) : ℚ) * 2 ^ (binaryExponent a b - 23))

/-- The call `std::stof(tok)` on a token of digits and dots (the only tokens the
pattern yields): `strtof` converts the longest leading `digits[.digits]` and
ignores what follows; `none` stands for the exception thrown
(`std::invalid_argument` when there is no digit to convert,
`std::out_of_range` on `ERANGE`). -/
def stof (tok : Bytes) : Option ℚ :=
  let ip := digitRun tok
  let fp := match afterDigits tok with
    | '.' :: r => digitRun r
    | _ => []
  if ip.isEmpty && fp.isEmpty then none
  else toBinary32 (decimalNat (ip ++ fp)) (10 ^ fp.length)

/-! ## The serial line -/

/-- One call of the tty layer, as recorded in the trace of a line. -/
inductive Event where
  /-- A call `tty_write_string(PortFD, cmd, ..)` and whether it returned `TTY_OK`. -/
  | write (cmd : Bytes) (ok : Bool)
  /-- A call `tty_nread_section(PortFD, response, ..)`: the bytes read, stop
  character included, when it returned `TTY_OK`, and `none` otherwise. -/
  | read (frame : Option Bytes)
  deriving DecidableEq, Repr

/-- The behaviour of the device behind `PortFD`: a deterministic machine over
states `σ`.  A write returns whether `tty_write_string` gave `TTY_OK`; a read
returns the frame `tty_nread_section` delivered (the bytes up to and including
the stop character `#`) or `none` for a timeout or read error. -/
structure Port (σ : Type) where
  /-- Outcome of `tty_write_string` in a device state. -/
  tty_write_string : σ → Bytes → Bool × σ
  /-- Outcome of `tty_nread_section` in a device state. -/
  tty_nread_section : σ → Option Bytes × σ

/-- The line as the driver sees it: the device state and the calls made so far. -/
structure Line (σ : Type) where
  /-- State of the device behind the port. -/
  dev : σ
  /-- The tty calls made so far, oldest first. -/
  trace : List Event

/-- Number of `tty_write_string` calls in a trace. -/
def writes (t : List Event) : Nat :=
  t.countP fun e => match e with
    | .write _ _ => true
    | .read _ => false

/-- Number of `tty_nread_section` calls in a trace. -/
def reads (t : List Event) : Nat :=
  t.countP fun e => match e with
    | .write _ _ => false
    | .read _ => true

/-- What `sendCommand` hands back: its `bool` result, the value of the reference
parameter `res` on return, and the line after the call. -/
structure Reply (σ : Type) where
  /-- The value returned. -/
  ok : Bool
  /-- The reference parameter `res` after the call. -/
  res : ℚ
  /-- The line after the call. -/
  line : Line σ

/-- The string `input` built from the response buffer: `response[nbytes_read - 1] = 0`
drops the last byte read (the stop character) and `std::string input(response)`
ends at the first NUL byte. -/
def inputOf (frame : Bytes) : Bytes := frame.dropLast.takeWhile fun c => c != '\x00'

/-- The `for (int i = 0; i < 3; i++)` loop of `Beaver::sendCommand` with `n`
iterations left, and the code after the loop (which only logs and returns
`false`).  A failed write returns `false`; a failed read sleeps and continues;
a frame the pattern does not match falls through to the next iteration; a
matched token is converted by `std::stof`, and the `catch (...)` returns `false`. -/
def sendCommandLoop {σ : Type} (P : Port σ) (cmd : Bytes) : Nat → ℚ → Line σ → Reply σ
  | 0, res, l => ⟨false, res, l⟩
  | n + 1, res, l =>
    let w := P.tty_write_string l.dev cmd
    let l1 : Line σ := ⟨w.2, l.trace ++ [Event.write cmd w.1]⟩
    if w.1 = false then ⟨false, res, l1⟩
    else
      let r := P.tty_nread_section l1.dev
      let l2 : Line σ := ⟨r.2, l1.trace ++ [Event.read r.1]⟩
      match r.1 with
      | none => sendCommandLoop P cmd n res l2
      | some frame =>
        match regexSearch (inputOf frame) with
        | none => sendCommandLoop P cmd n res l2
        | some tok =>
          match stof tok with
          | some v => ⟨true, v, l2⟩
          | none => ⟨false, res, l2⟩

/-- The member function `bool Beaver::sendCommand(const char * cmd, double &res)`. -/
def sendCommand {σ : Type} (P : Port σ) (cmd : Bytes) (res : ℚ) (l : Line σ) : Reply σ :=
  sendCommandLoop P cmd 3 res l

/-! ## Driver state -/

/-- The constants of the class header `beaver_dome.h`, which is not among the
sources: the buffer length and the masks of the status word.  Every definition
below takes them as a parameter. -/
structure Header where
  /-- Length of the command and response buffers. -/
  DRIVER_LEN : Nat
  /-- Mask of the rotator-moving flag. -/
  DOME_STATUS_ROTATOR_MOVING : Nat
  /-- Mask of the rotator-at-home flag. -/
  DOME_STATUS_ROTATOR_HOME : Nat
  /-- Mask of the rotator-parked flag. -/
  DOME_STATUS_ROTATOR_PARKED : Nat
  /-- Mask of the rotator mechanical-error flag. -/
  DOME_STATUS_ROTATOR_ERROR : Nat
  /-- Mask of the shutter-moving flag. -/
  DOME_STATUS_SHUTTER_MOVING : Nat
  /-- Mask of the shutter-closed flag. -/
  DOME_STATUS_SHUTTER_CLOSED : Nat
  /-- Mask of the shutter-open flag. -/
  DOME_STATUS_SHUTTER_OPENED : Nat
  /-- Mask of the shutter-opening flag. -/
  DOME_STATUS_SHUTTER_OPENING : Nat
  /-- Mask of the shutter-closing flag. -/
  DOME_STATUS_SHUTTER_CLOSING : Nat
  /-- Mask of the shutter mechanical-error flag. -/
  DOME_STATUS_SHUTTER_ERROR : Nat
  /-- Mask of the shutter communication-error flag. -/
  DOME_STATUS_SHUTTER_COMM : Nat
  /-- Mask of the counterweight-unsafe flag. -/
  DOME_STATUS_UNSAFE_CW : Nat
  /-- Mask of the rotation-guard-unsafe flag. -/
  DOME_STATUS_UNSAFE_RG : Nat

/-- Modelled from the spec: the header `beaver_dome.h` with the `DOME_STATUS_*`
masks is missing; the spec (section 3) describes the status word as 16 bits of
independent named flags, so here every flag has a bit of its own, and the
buffers have 128 bytes.  Only the closed examples use this instance. -/
def beaverHeader : Header where
  DRIVER_LEN := 128
  DOME_STATUS_ROTATOR_MOVING := 0x0001
  DOME_STATUS_SHUTTER_MOVING := 0x0002
  DOME_STATUS_ROTATOR_ERROR := 0x0004
  DOME_STATUS_SHUTTER_ERROR := 0x0008
  DOME_STATUS_SHUTTER_COMM := 0x0010
  DOME_STATUS_UNSAFE_CW := 0x0020
  DOME_STATUS_UNSAFE_RG := 0x0040
  DOME_STATUS_SHUTTER_OPENED := 0x0080
  DOME_STATUS_SHUTTER_CLOSED := 0x0100
  DOME_STATUS_SHUTTER_OPENING := 0x0200
  DOME_STATUS_SHUTTER_CLOSING := 0x0400
  DOME_STATUS_ROTATOR_HOME := 0x0800
  DOME_STATUS_ROTATOR_PARKED := 0x1000

/-- The enumeration `INDI::Dome::DomeState` of the base class. -/
inductive DomeState where
  | DOME_UNKNOWN | DOME_ERROR | DOME_IDLE | DOME_MOVING | DOME_SYNCED
  | DOME_PARKING | DOME_UNPARKING | DOME_PARKED | DOME_UNPARKED
  deriving DecidableEq, Repr

/-- The enumeration `INDI::Dome::ShutterState` of the base class. -/
inductive ShutterState where
  | SHUTTER_OPENED | SHUTTER_CLOSED | SHUTTER_MOVING | SHUTTER_UNKNOWN | SHUTTER_ERROR
  deriving DecidableEq, Repr

/-- The result type `IPState` of the INDI motion callbacks. -/
inductive IPState where
  | IPS_IDLE | IPS_OK | IPS_BUSY | IPS_ALERT
  deriving DecidableEq, Repr

/-- The argument type `ShutterOperation` of `ControlShutter`. -/
inductive ShutterOperation where
  | SHUTTER_OPEN | SHUTTER_CLOSE
  deriving DecidableEq, Repr

open DomeState ShutterState IPState ShutterOperation

/-- The members of the driver object that the modelled functions read or write.
`getDomeState()` and `getShutterState()` return `domeState` and `shutterState`;
`setDomeState(v)` and `setShutterState(v)` of the base class store `v` there. -/
structure Dome where
  /-- Value of `isConnected()`. -/
  connected : Bool
  /-- The rotator state `m_DomeState`. -/
  domeState : DomeState
  /-- Text of `RotatorStatusTP[0]`. -/
  rotatorStatus : String
  /-- The shutter state `m_ShutterState`. -/
  shutterState : ShutterState
  /-- Text of `ShutterStatusTP[0]`. -/
  shutterStatus : String
  /-- The azimuth `DomeAbsPosN[0].value`. -/
  domeAbsPos : ℚ
  /-- The member `m_TargetRotatorAz`. -/
  targetRotatorAz : ℚ
  /-- Value of `ShutterVoltsNP[0]`. -/
  shutterVolts : ℚ
  /-- The bound `DomeAbsPosN[0].min`, which the base class sets to 0. -/
  domeAbsPosMin : ℚ := 0
  /-- The bound `DomeAbsPosN[0].max`, which the base class sets to 360. -/
  domeAbsPosMax : ℚ := 360

/-- The call `setDomeState(v)`. -/
def setDomeState (d : Dome) (v : DomeState) : Dome := { d with domeState := v }

/-- The call `setShutterState(v)`. -/
def setShutterState (d : Dome) (v : ShutterState) : Dome := { d with shutterState := v }

/-- The call `RotatorStatusTP[0].setText(t)`. -/
def setRotatorText (d : Dome) (t : String) : Dome := { d with rotatorStatus := t }

/-- The call `ShutterStatusTP[0].setText(t)`. -/
def setShutterText (d : Dome) (t : String) : Dome := { d with shutterStatus := t }

/-- The conversion `static_cast<uint16_t>(res)` of a non-negative `double`:
the integer part, reduced to 16 bits. -/
def toUInt16 (r : ℚ) : Nat := (Rat.floor r).toNat % 65536

/-- The C test `if (domestatus & mask)`. -/
def bitSet (domestatus mask : Nat) : Bool := domestatus &&& mask != 0

/-- The text `printf` writes for `%.2f`: sign, integer part and two decimals of
the value rounded to hundredths (ties to even). -/
def printf2f (v : ℚ) : Bytes :=
  let h := roundHalfEven (v.num.natAbs * 100) v.den
  (if v < 0 then ['-'] else []) ++ Nat.toDigits 10 (h / 100) ++
    ['.', Nat.digitChar (h / 10 % 10), Nat.digitChar (h % 10)]

/-- The buffer `cmd` after `snprintf(cmd, DRIVER_LEN, "<head>%.2f#", az)`. -/
def snprintf2f (H : Header) (head : String) (az : ℚ) : Bytes :=
  (head.toList ++ printf2f az ++ ['#']).take (H.DRIVER_LEN - 1)

/-! ## Device operations -/

/-- Result of a member function: the value returned, the driver members and the
line after the call. -/
structure Out (σ : Type) (α : Type) where
  /-- The value returned. -/
  ret : α
  /-- The driver members after the call. -/
  dome : Dome
  /-- The line after the call. -/
  line : Line σ

/-- A member function that sends one command with a local `double res = 0` and
returns the result of `sendCommand`. -/
def sendOnly {σ : Type} (P : Port σ) (cmd : Bytes) (d : Dome) (l : Line σ) : Out σ Bool :=
  let q := sendCommand P cmd 0 l
  ⟨q.ok, d, q.line⟩

/-- The member function `bool Beaver::rotatorGotoAz(double az)`. -/
def rotatorGotoAz {σ : Type} (H : Header) (P : Port σ) (az : ℚ) (d : Dome) (l : Line σ) :
    Out σ Bool :=
  sendOnly P (snprintf2f H "!dome gotoaz " az)
    (setRotatorText (setDomeState d DOME_MOVING) "Moving") l

/-- The member function `bool Beaver::rotatorGetAz()`. -/
def rotatorGetAz {σ : Type} (P : Port σ) (d : Dome) (l : Line σ) : Out σ Bool :=
  let q := sendCommand P "!dome getaz#".toList 0 l
  if q.ok then ⟨true, { d with domeAbsPos := q.res }, q.line⟩ else ⟨false, d, q.line⟩

/-- The member function `bool Beaver::rotatorSyncAZ(double az)`. -/
def rotatorSyncAZ {σ : Type} (H : Header) (P : Port σ) (az : ℚ) (d : Dome) (l : Line σ) :
    Out σ Bool :=
  sendOnly P (snprintf2f H "!dome setaz " az) d l

/-- The member function `bool Beaver::rotatorSetHome(double az)`. -/
def rotatorSetHome {σ : Type} (H : Header) (P : Port σ) (az : ℚ) (d : Dome) (l : Line σ) :
    Out σ Bool :=
  sendOnly P (snprintf2f H "!domerot sethome " az) d l

/-- The member function `bool Beaver::rotatorSetPark(double az)`, the overload with an argument. -/
def rotatorSetParkAz {σ : Type} (H : Header) (P : Port σ) (az : ℚ) (d : Dome) (l : Line σ) :
    Out σ Bool :=
  sendOnly P (snprintf2f H "!domerot setpark " az) d l

/-- The member function `bool Beaver::rotatorGotoPark()`. -/
def rotatorGotoPark {σ : Type} (P : Port σ) (d : Dome) (l : Line σ) : Out σ Bool :=
  sendOnly P "!dome gopark#".toList (setRotatorText (setDomeState d DOME_PARKING) "Parking") l

/-- The member function `bool Beaver::rotatorUnPark()`: no command is sent. -/
def rotatorUnPark {σ : Type} (d : Dome) (l : Line σ) : Out σ Bool :=
  ⟨true, setRotatorText (setDomeState d DOME_IDLE) "Idle @ park", l⟩

/-- The member function `bool Beaver::rotatorSetPark()`, the overload without argument. -/
def rotatorSetPark {σ : Type} (P : Port σ) (d : Dome) (l : Line σ) : Out σ Bool :=
  sendOnly P "!dome setpark#".toList (setRotatorText (setDomeState d DOME_PARKED) "Parked") l

/-- The member function `bool Beaver::rotatorGotoHome()`. -/
def rotatorGotoHome {σ : Type} (P : Port σ) (d : Dome) (l : Line σ) : Out σ Bool :=
  sendOnly P "!dome gohome#".toList (setRotatorText (setDomeState d DOME_MOVING) "Homing") l

/-- The member function `bool Beaver::rotatorMeasureHome()`. -/
def rotatorMeasureHome {σ : Type} (P : Port σ) (d : Dome) (l : Line σ) : Out σ Bool :=
  sendOnly P "!dome autocalrot 1#".toList
    (setRotatorText (setDomeState d DOME_MOVING) "Measuring Home") l

/-- The member function `bool Beaver::rotatorFindHome()`. -/
def rotatorFindHome {σ : Type} (P : Port σ) (d : Dome) (l : Line σ) : Out σ Bool :=
  sendOnly P "!dome autocalrot 0#".toList
    (setRotatorText (setDomeState d DOME_MOVING) "Finding Home") l

/-- The member function `bool Beaver::rotatorIsHome()`. -/
def rotatorIsHome {σ : Type} (P : Port σ) (d : Dome) (l : Line σ) : Out σ Bool :=
  let q := sendCommand P "!dome athome#".toList 0 l
  if q.ok then ⟨decide (q.res = 1), setRotatorText d "Home", q.line⟩ else ⟨false, d, q.line⟩

/-- The member function `bool Beaver::rotatorIsParked()`. -/
def rotatorIsParked {σ : Type} (P : Port σ) (d : Dome) (l : Line σ) : Out σ Bool :=
  let q := sendCommand P "!dome atpark#".toList 0 l
  if q.ok then ⟨decide (q.res = 1), setRotatorText d "Parked", q.line⟩ else ⟨false, d, q.line⟩

/-- The member function `bool Beaver::shutterIsUp()`. -/
def shutterIsUp {σ : Type} (P : Port σ) (d : Dome) (l : Line σ) : Out σ Bool :=
  let q := sendCommand P "!dome shutterisup#".toList 0 l
  if q.ok then ⟨true, d, q.line⟩ else ⟨false, d, q.line⟩

/-- The member function `bool Beaver::abortAll()`. -/
def abortAll {σ : Type} (P : Port σ) (d : Dome) (l : Line σ) : Out σ Bool :=
  let q := sendCommand P "!dome abort 1 1 1#".toList 0 l
  if q.ok then
    let g := rotatorGetAz P (setRotatorText d "Idle") q.line
    if g.ret = false then ⟨false, g.dome, g.line⟩ else ⟨true, g.dome, g.line⟩
  else ⟨false, d, q.line⟩

/-- The member function `bool Beaver::shutterAbort()`. -/
def shutterAbort {σ : Type} (P : Port σ) (d : Dome) (l : Line σ) : Out σ Bool :=
  sendOnly P "!dome abort 0 0 1#".toList d l

/-- The member function `bool Beaver::shutterFindHome()`. -/
def shutterFindHome {σ : Type} (P : Port σ) (d : Dome) (l : Line σ) : Out σ Bool :=
  let u := shutterIsUp P d l
  if u.ret then sendOnly P "!dome autocalshutter#".toList u.dome u.line
  else ⟨false, u.dome, u.line⟩

/-- The member function `IPState Beaver::MoveAbs(double az)`. -/
def MoveAbs {σ : Type} (H : Header) (P : Port σ) (az : ℚ) (d : Dome) (l : Line σ) :
    Out σ IPState :=
  let g := rotatorGotoAz H P az d l
  if g.ret then
    ⟨IPS_BUSY,
      setRotatorText (setDomeState { g.dome with targetRotatorAz := az } DOME_MOVING) "Moving",
      g.line⟩
  else ⟨IPS_ALERT, g.dome, g.line⟩

/-- The member function `bool Beaver::Sync(double az)`. -/
def Sync {σ : Type} (H : Header) (P : Port σ) (az : ℚ) (d : Dome) (l : Line σ) : Out σ Bool :=
  rotatorSyncAZ H P az d l

/-- The member function `IPState Beaver::ControlShutter(ShutterOperation operation)`. -/
def ControlShutter {σ : Type} (P : Port σ) (operation : ShutterOperation) (d : Dome)
    (l : Line σ) : Out σ IPState :=
  match operation with
  | SHUTTER_OPEN =>
    let q := sendCommand P "!dome openshutter#".toList 0 l
    ⟨if q.ok then IPS_BUSY else IPS_ALERT, d, q.line⟩
  | SHUTTER_CLOSE =>
    let q := sendCommand P "!dome closeshutter#".toList 0 l
    ⟨if q.ok then IPS_BUSY else IPS_ALERT, d, q.line⟩

/-- The member function `bool Beaver::Abort()`. -/
def Abort {σ : Type} (P : Port σ) (d : Dome) (l : Line σ) : Out σ Bool := abortAll P d l

/-- The member function `IPState Beaver::Park()`. -/
def Park {σ : Type} (P : Port σ) (d : Dome) (l : Line σ) : Out σ IPState :=
  let g := rotatorGotoPark P d l
  ⟨if g.ret then IPS_BUSY else IPS_ALERT, g.dome, g.line⟩

/-- The member function `IPState Beaver::UnPark()`. -/
def UnPark {σ : Type} (d : Dome) (l : Line σ) : Out σ IPState := ⟨IPS_OK, d, l⟩

/-- The member function `IPState Beaver::MoveRel(double azDiff)`. -/
def MoveRel {σ : Type} (H : Header) (P : Port σ) (azDiff : ℚ) (d : Dome) (l : Line σ) :
    Out σ IPState :=
  let t0 := d.domeAbsPos + azDiff
  let t1 := if t0 < d.domeAbsPosMin then t0 + d.domeAbsPosMax else t0
  let t2 := if t1 > d.domeAbsPosMax then t1 - d.domeAbsPosMax else t1
  MoveAbs H P t2 { d with targetRotatorAz := t2 } l

/-- The member function `bool Beaver::rotatorSetSettings(double maxSpeed, double minSpeed,
double acceleration, double timeout)`; each parameter is the `res` of its command. -/
def rotatorSetSettings {σ : Type} (P : Port σ) (maxSpeed minSpeed acceleration timeout : ℚ)
    (d : Dome) (l : Line σ) : Out σ Bool :=
  let q1 := sendCommand P "!domerot setmaxspeed#".toList maxSpeed l
  if q1.ok = false then ⟨false, d, q1.line⟩
  else
    let q2 := sendCommand P "!domerot setminspeed#".toList minSpeed q1.line
    if q2.ok = false then ⟨false, d, q2.line⟩
    else
      let q3 := sendCommand P "!domerot setacceleration#".toList acceleration q2.line
      if q3.ok = false then ⟨false, d, q3.line⟩
      else
        let q4 := sendCommand P "!domerot setfullrotsecs#".toList timeout q3.line
        if q4.ok = false then ⟨false, d, q4.line⟩
        else ⟨true, d, q4.line⟩

/-- The five commands of `shutterSetSettings` inside its `if (shutterIsUp())`. -/
def shutterSetFields {σ : Type} (P : Port σ) (maxSpeed minSpeed acceleration timeout voltage : ℚ)
    (d : Dome) (l : Line σ) : Out σ Bool :=
  let q1 := sendCommand P "!dome setshuttermaxspeed#".toList maxSpeed l
  if q1.ok = false then ⟨false, d, q1.line⟩
  else
    let q2 := sendCommand P "!dome setshutterminspeed#".toList minSpeed q1.line
    if q2.ok = false then ⟨false, d, q2.line⟩
    else
      let q3 := sendCommand P "!dome setshutteracceleration#".toList acceleration q2.line
      if q3.ok = false then ⟨false, d, q3.line⟩
      else
        let q4 := sendCommand P "!dome setshuttertimeoutopenclose#".toList timeout q3.line
        if q4.ok = false then ⟨false, d, q4.line⟩
        else
          let q5 := sendCommand P "!dome setshuttersafevoltage#".toList voltage q4.line
          if q5.ok = false then ⟨false, d, q5.line⟩
          else ⟨true, d, q5.line⟩

/-- The member function `bool Beaver::shutterSetSettings(double maxSpeed, double minSpeed,
double acceleration, double timeout, double voltage)`. -/
def shutterSetSettings {σ : Type} (P : Port σ)
    (maxSpeed minSpeed acceleration timeout voltage : ℚ) (d : Dome) (l : Line σ) : Out σ Bool :=
  let u := shutterIsUp P d l
  if u.ret then shutterSetFields P maxSpeed minSpeed acceleration timeout voltage u.dome u.line
  else ⟨true, u.dome, u.line⟩

/-! ## The poll tick -/

/-- The block "Test for general dome errors" of `TimerHit`. -/
def checkUnsafe (H : Header) (domestatus : Nat) (d : Dome) : Dome :=
  let d1 := if bitSet domestatus H.DOME_STATUS_UNSAFE_CW then setDomeState d DOME_ERROR else d
  if bitSet domestatus H.DOME_STATUS_UNSAFE_RG then setDomeState d1 DOME_ERROR else d1

/-- The block "Check rotator" of `TimerHit`: four `if` statements in a row, none
of them an `else` of the one before. -/
def checkRotator (H : Header) (domestatus : Nat) (d : Dome) : Dome :=
  if d.domeState = DOME_MOVING ∨ d.domeState = DOME_UNPARKING then
    let d1 := if domestatus &&& H.DOME_STATUS_ROTATOR_MOVING = 0
      then setRotatorText (setDomeState d DOME_IDLE) "Idle" else d
    let d2 := if bitSet domestatus H.DOME_STATUS_ROTATOR_HOME
      then setRotatorText (setDomeState d1 DOME_IDLE) "At Home/Idle" else d1
    let d3 := if bitSet domestatus H.DOME_STATUS_ROTATOR_PARKED
      then setRotatorText (setDomeState d2 DOME_PARKED) "At Park/Idle" else d2
    if bitSet domestatus H.DOME_STATUS_ROTATOR_ERROR
      then setRotatorText (setDomeState d3 DOME_ERROR) "Error" else d3
  else d

/-- The block "Dome parked is a special case" of `TimerHit`. -/
def checkParking (d : Dome) : Dome :=
  if d.domeState = DOME_PARKING then setRotatorText (setDomeState d DOME_PARKED) "Parked" else d

/-- The shutter block of `TimerHit`: seven `if` statements in a row. -/
def checkShutter (H : Header) (domestatus : Nat) (d : Dome) : Dome :=
  if d.shutterState = SHUTTER_MOVING then
    let d1 := if bitSet domestatus H.DOME_STATUS_SHUTTER_MOVING
      then setShutterText (setShutterState d SHUTTER_MOVING) "Open" else d
    let d2 := if bitSet domestatus H.DOME_STATUS_SHUTTER_CLOSED
      then setShutterText (setShutterState d1 SHUTTER_CLOSED) "Closed" else d1
    let d3 := if bitSet domestatus H.DOME_STATUS_SHUTTER_OPENED
      then setShutterText (setShutterState d2 SHUTTER_OPENED) "Open" else d2
    let d4 := if bitSet domestatus H.DOME_STATUS_SHUTTER_OPENING
      then setShutterText (setShutterState d3 SHUTTER_MOVING) "Opening" else d3
    let d5 := if bitSet domestatus H.DOME_STATUS_SHUTTER_CLOSING
      then setShutterText (setShutterState d4 SHUTTER_MOVING) "Closing" else d4
    let d6 := if bitSet domestatus H.DOME_STATUS_SHUTTER_ERROR
      then setShutterState (setShutterText d5 "Mechanical Error") SHUTTER_ERROR else d5
    if bitSet domestatus H.DOME_STATUS_SHUTTER_COMM
      then setShutterState (setShutterText d6 "Communications Error") SHUTTER_ERROR else d6
  else d

/-- The block "Update shutter voltage" of `TimerHit`; `res` is the local of the
status query, used again here. -/
def updateVoltage {σ : Type} (P : Port σ) (res : ℚ) (d : Dome) (l : Line σ) : Dome × Line σ :=
  let u := shutterIsUp P d l
  if u.ret then
    let v := sendCommand P "!dome getshutterbatvoltage#".toList res u.line
    if v.ok = false then (u.dome, v.line) else ({ u.dome with shutterVolts := v.res }, v.line)
  else (u.dome, u.line)

/-- The status word one tick works with: `res` starts at 0, the query
`!dome status#` overwrites it only when it succeeds, and no branch is taken on
the query's result (a failure is only logged). -/
def statusWord {σ : Type} (P : Port σ) (l : Line σ) : Nat :=
  toUInt16 (sendCommand P "!dome status#".toList 0 l).res

/-- The member function `void Beaver::TimerHit()`; the closing `SetTimer` call only re-arms the timer. -/
def TimerHit {σ : Type} (H : Header) (P : Port σ) (d : Dome) (l : Line σ) : Dome × Line σ :=
  if d.connected = false then (d, l)
  else
    let q := sendCommand P "!dome status#".toList 0 l
    let domestatus := toUInt16 q.res
    let d1 := checkUnsafe H domestatus d
    let g := rotatorGetAz P d1 q.line
    let d2 := checkRotator H domestatus g.dome
    let d3 := checkParking d2
    let d4 := checkShutter H domestatus d3
    updateVoltage P q.res d4 g.line

/-! ## One iteration of the command loop -/

/-- The line after the write of one iteration. -/
def afterWrite {σ : Type} (P : Port σ) (cmd : Bytes) (l : Line σ) : Line σ :=
  ⟨(P.tty_write_string l.dev cmd).2, l.trace ++ [Event.write cmd (P.tty_write_string l.dev cmd).1]⟩

/-- The line after the write and the read of one iteration. -/
def afterRead {σ : Type} (P : Port σ) (cmd : Bytes) (l : Line σ) : Line σ :=
  ⟨(P.tty_nread_section (afterWrite P cmd l).dev).2,
    (afterWrite P cmd l).trace ++ [Event.read (P.tty_nread_section (afterWrite P cmd l).dev).1]⟩

/-- What the read of one iteration delivers. -/
def frameRead {σ : Type} (P : Port σ) (cmd : Bytes) (l : Line σ) : Option Bytes :=
  (P.tty_nread_section (afterWrite P cmd l).dev).1

/-! ## Calls of the driver, for statements that range over them -/

/-- One motion command or state-setting call of the driver, for statements that
range over them. -/
inductive Command where
  | gotoAz (az : ℚ) | gotoHome | gotoPark | findHome | measureHome | moveAbs (az : ℚ)
  | unPark | setPark
  deriving DecidableEq

/-- One call of the driver that sets no rotator state. -/
inductive Query where
  | getAz | syncAz (az : ℚ) | setHome (az : ℚ) | setParkAz (az : ℚ) | isHome | isParked
  | shutterIsUp | abortAll | shutterAbort | shutterFindHome
  | controlShutter (operation : ShutterOperation)
  deriving DecidableEq

/-- A call whose returned value is dropped. -/
def discard {σ α : Type} (o : Out σ α) : Out σ Unit := ⟨(), o.dome, o.line⟩

/-- The call a `Command` stands for. -/
def runCommand {σ : Type} (H : Header) (P : Port σ) (c : Command) (d : Dome) (l : Line σ) :
    Out σ Unit :=
  match c with
  | .gotoAz az => discard (rotatorGotoAz H P az d l)
  | .gotoHome => discard (rotatorGotoHome P d l)
  | .gotoPark => discard (rotatorGotoPark P d l)
  | .findHome => discard (rotatorFindHome P d l)
  | .measureHome => discard (rotatorMeasureHome P d l)
  | .moveAbs az => discard (MoveAbs H P az d l)
  | .unPark => discard (rotatorUnPark d l)
  | .setPark => discard (rotatorSetPark P d l)

/-- The call a `Query` stands for. -/
def runQuery {σ : Type} (H : Header) (P : Port σ) (c : Query) (d : Dome) (l : Line σ) :
    Out σ Unit :=
  match c with
  | .getAz => discard (rotatorGetAz P d l)
  | .syncAz az => discard (rotatorSyncAZ H P az d l)
  | .setHome az => discard (rotatorSetHome H P az d l)
  | .setParkAz az => discard (rotatorSetParkAz H P az d l)
  | .isHome => discard (rotatorIsHome P d l)
  | .isParked => discard (rotatorIsParked P d l)
  | .shutterIsUp => discard (shutterIsUp P d l)
  | .abortAll => discard (abortAll P d l)
  | .shutterAbort => discard (shutterAbort P d l)
  | .shutterFindHome => discard (shutterFindHome P d l)
  | .controlShutter op => discard (ControlShutter P op d l)

/-! ## Frames, tokens and values, for the statements about parsing -/

/-- Whether a colon immediately followed by a decimal digit occurs in the bytes. -/
def hasColonDigit : Bytes → Bool
  | [] => false
  | c :: cs =>
    (c == ':' && (match cs with
      | [] => false
      | d :: _ => isDigit d)) || hasColonDigit cs

/-- A byte a token of the pattern is made of: a decimal digit or a point. -/
def isTokenByte (c : Char) : Bool := c == '.' || isDigit c

/-- A byte that neither ends the C string nor stops the pattern's `.`. -/
def isPlainByte (c : Char) : Bool := c != '\x00' && !isLineTerminator c

/-- The token `<int>` (when `frac` is empty) or `<int>.<frac>`. -/
def tokenOf (int frac : Bytes) : Bytes :=
  match frac with
  | [] => int
  | f :: fs => int ++ '.' :: f :: fs

/-- The number the decimal numeral `<int>.<frac>` denotes. -/
def decimalValue (int frac : Bytes) : ℚ := (decimalNat (int ++ frac) : ℚ) / 10 ^ frac.length

/-- Whether a rational is a normal binary32 number: a significand of exactly 24
bits times a power of two between `2 ^ (-149)` and `2 ^ 104`. -/
def IsBinary32 (v : ℚ) : Prop :=
  ∃ (m : Nat) (t : Int), 2 ^ 23 ≤ m ∧ m < 2 ^ 24 ∧ -149 ≤ t ∧ t ≤ 104 ∧ v = m * 2 ^ t

/-! ## Notions for the statements about the shutter label, the setters and relative moves -/

/-- The text left by a row of `if (domestatus & mask) setText(text)` statements:
the text of the last test whose mask has a bit in the status word, and the text
before when there is none. -/
def lastSetLabel (tests : List (Nat × String)) (domestatus : Nat) (before : String) : String :=
  tests.foldl (fun acc t => if bitSet domestatus t.1 then t.2 else acc) before

/-- The seven shutter tests of `TimerHit` with the texts they set, in the order
of the code. -/
def shutterTests (H : Header) : List (Nat × String) :=
  [(H.DOME_STATUS_SHUTTER_MOVING, "Open"), (H.DOME_STATUS_SHUTTER_CLOSED, "Closed"),
    (H.DOME_STATUS_SHUTTER_OPENED, "Open"), (H.DOME_STATUS_SHUTTER_OPENING, "Opening"),
    (H.DOME_STATUS_SHUTTER_CLOSING, "Closing"), (H.DOME_STATUS_SHUTTER_ERROR, "Mechanical Error"),
    (H.DOME_STATUS_SHUTTER_COMM, "Communications Error")]

/-- The checked order as the specification words it (section 4.4): moving, open,
opening, closing, mechanical-error, communication-error, with the texts of the
code; the closed bit is not in it. -/
def shutterTestsAsSpecified (H : Header) : List (Nat × String) :=
  [(H.DOME_STATUS_SHUTTER_MOVING, "Open"),
    (H.DOME_STATUS_SHUTTER_OPENED, "Open"), (H.DOME_STATUS_SHUTTER_OPENING, "Opening"),
    (H.DOME_STATUS_SHUTTER_CLOSING, "Closing"), (H.DOME_STATUS_SHUTTER_ERROR, "Mechanical Error"),
    (H.DOME_STATUS_SHUTTER_COMM, "Communications Error")]

/-- The events a call appended to the trace: those of the line after it that
the line before it did not have. -/
def newEvents {σ : Type} (before after : Line σ) : List Event :=
  after.trace.drop before.trace.length

/-- The request strings of the writes in a trace, in order. -/
def cmdsWritten : List Event → List Bytes
  | [] => []
  | Event.write cmd _ :: t => cmd :: cmdsWritten t
  | Event.read _ :: t => cmdsWritten t

/-- The request string of the shutter presence probe. -/
def shutterProbeCmd : Bytes := "!dome shutterisup#".toList

/-- The request strings of `rotatorSetSettings`, in the order of the code. -/
def rotatorSettingCmds : List Bytes :=
  ["!domerot setmaxspeed#".toList, "!domerot setminspeed#".toList,
    "!domerot setacceleration#".toList, "!domerot setfullrotsecs#".toList]

/-- The request strings of the field commands of `shutterSetSettings`, in the
order of the code. -/
def shutterSettingCmds : List Bytes :=
  ["!dome setshuttermaxspeed#".toList, "!dome setshutterminspeed#".toList,
    "!dome setshutteracceleration#".toList, "!dome setshuttertimeoutopenclose#".toList,
    "!dome setshuttersafevoltage#".toList]

/-- Fields applied one after another as the specification words it (section
4.3): each command with its value is sent in turn, the first failure ends the
sequence with `false`, and `true` is returned when all were sent with success. -/
def sendFields {σ : Type} (P : Port σ) : List (Bytes × ℚ) → Line σ → Bool × Line σ
  | [], l => (true, l)
  | (cmd, v) :: rest, l =>
    if (sendCommand P cmd v l).ok then sendFields P rest (sendCommand P cmd v l).line
    else (false, (sendCommand P cmd v l).line)

/-- The replies a list of commands gets when each is sent on the line the one
before left, whatever its outcome. -/
def replies {σ : Type} (P : Port σ) : List (Bytes × ℚ) → Line σ → List (Reply σ)
  | [], _ => []
  | (cmd, v) :: rest, l => sendCommand P cmd v l :: replies P rest (sendCommand P cmd v l).line

/-- The azimuth `s` wrapped into the range from 0 (included) to 360 (excluded),
as the specification words the target of a relative move: the number in that
range that differs from `s` by a multiple of 360. -/
def wrap360 (s : ℚ) : ℚ := s - 360 * ((Rat.floor (s / 360) : Int) : ℚ)

/-! ## Ports and states of the examples -/

/-- A port that plays a script: the outcomes of the writes to come and the
outcomes of the reads to come; past the end of the script a write fails and a
read times out. -/
def scriptedPort : Port (List Bool × List (Option Bytes)) where
  tty_write_string := fun s _ => (s.1.headD false, (s.1.tail, s.2))
  tty_nread_section := fun s => (s.2.headD none, (s.1, s.2.tail))

/-- A line of the scripted port on which nothing has been sent yet. -/
def freshLine (ws : List Bool) (rs : List (Option Bytes)) :
    Line (List Bool × List (Option Bytes)) :=
  ⟨(ws, rs), []⟩

/-- A port on which every write succeeds and every read times out. -/
def deafPort : Port Unit where
  tty_write_string := fun _ _ => (true, ())
  tty_nread_section := fun _ => (none, ())

/-- A port on which every write succeeds and every read delivers `ERR:x#`. -/
def mutePort : Port Unit where
  tty_write_string := fun _ _ => (true, ())
  tty_nread_section := fun _ => (some "ERR:x#".toList, ())

/-- A connected driver at the given azimuth, with the rotator Idle. -/
def domeAt (az : ℚ) : Dome :=
  { connected := true, domeState := DOME_IDLE, rotatorStatus := "Idle",
    shutterState := SHUTTER_UNKNOWN, shutterStatus := "Idle", domeAbsPos := az,
    targetRotatorAz := 0, shutterVolts := 0 }

/-- A connected driver in the given rotator and shutter states. -/
def domeIn (s : DomeState) (t : ShutterState) : Dome :=
  { connected := true, domeState := s, rotatorStatus := "Moving", shutterState := t,
    shutterStatus := "Idle", domeAbsPos := 0, targetRotatorAz := 0, shutterVolts := 0 }

/-! # Theorems -/

theorem loop_write_fail {σ : Type} (P : Port σ) (cmd : Bytes) (n : Nat) (res : ℚ) (l : Line σ)
    (hw : (P.tty_write_string l.dev cmd).1 = false) :
    sendCommandLoop P cmd (n + 1) res l = ⟨false, res, afterWrite P cmd l⟩ := by
  simp [sendCommandLoop, afterWrite, hw]

theorem loop_read_fail {σ : Type} (P : Port σ) (cmd : Bytes) (n : Nat) (res : ℚ) (l : Line σ)
    (hw : (P.tty_write_string l.dev cmd).1 = true) (hr : frameRead P cmd l = none) :
    sendCommandLoop P cmd (n + 1) res l = sendCommandLoop P cmd n res (afterRead P cmd l) := by
  unfold frameRead afterWrite at hr
  simp only [sendCommandLoop, hw, hr, afterRead, afterWrite]
  simp

theorem loop_no_match {σ : Type} (P : Port σ) (cmd : Bytes) (n : Nat) (res : ℚ) (l : Line σ)
    (f : Bytes) (hw : (P.tty_write_string l.dev cmd).1 = true) (hr : frameRead P cmd l = some f)
    (hm : regexSearch (inputOf f) = none) :
    sendCommandLoop P cmd (n + 1) res l = sendCommandLoop P cmd n res (afterRead P cmd l) := by
  unfold frameRead afterWrite at hr
  simp only [sendCommandLoop, hw, hr, afterRead, afterWrite, hm]
  simp

theorem loop_value {σ : Type} (P : Port σ) (cmd : Bytes) (n : Nat) (res : ℚ) (l : Line σ)
    (f tok : Bytes) (v : ℚ) (hw : (P.tty_write_string l.dev cmd).1 = true)
    (hr : frameRead P cmd l = some f) (hm : regexSearch (inputOf f) = some tok)
    (hv : stof tok = some v) :
    sendCommandLoop P cmd (n + 1) res l = ⟨true, v, afterRead P cmd l⟩ := by
  unfold frameRead afterWrite at hr
  simp only [sendCommandLoop, hw, hr, afterRead, afterWrite, hm, hv]
  simp

theorem loop_throw {σ : Type} (P : Port σ) (cmd : Bytes) (n : Nat) (res : ℚ) (l : Line σ)
    (f tok : Bytes) (hw : (P.tty_write_string l.dev cmd).1 = true)
    (hr : frameRead P cmd l = some f) (hm : regexSearch (inputOf f) = some tok)
    (hv : stof tok = none) :
    sendCommandLoop P cmd (n + 1) res l = ⟨false, res, afterRead P cmd l⟩ := by
  unfold frameRead afterWrite at hr
  simp only [sendCommandLoop, hw, hr, afterRead, afterWrite, hm, hv]
  simp

/-- The five ways one iteration can go. -/
theorem loop_cases {σ : Type} (P : Port σ) (cmd : Bytes) (n : Nat) (res : ℚ) (l : Line σ) :
    sendCommandLoop P cmd (n + 1) res l = ⟨false, res, afterWrite P cmd l⟩ ∧
        (P.tty_write_string l.dev cmd).1 = false ∨
    sendCommandLoop P cmd (n + 1) res l = sendCommandLoop P cmd n res (afterRead P cmd l) ∧
        (P.tty_write_string l.dev cmd).1 = true ∧
        (frameRead P cmd l = none ∨ ∃ f, frameRead P cmd l = some f ∧ regexSearch (inputOf f) = none) ∨
    (∃ v, sendCommandLoop P cmd (n + 1) res l = ⟨true, v, afterRead P cmd l⟩) ∧
        (P.tty_write_string l.dev cmd).1 = true ∨
    sendCommandLoop P cmd (n + 1) res l = ⟨false, res, afterRead P cmd l⟩ ∧
        (P.tty_write_string l.dev cmd).1 = true ∧
        ∃ f tok, frameRead P cmd l = some f ∧ regexSearch (inputOf f) = some tok ∧ stof tok = none := by
  cases hw : (P.tty_write_string l.dev cmd).1 with
  | false => exact Or.inl ⟨loop_write_fail P cmd n res l hw, rfl⟩
  | true =>
    cases hr : frameRead P cmd l with
    | none => exact Or.inr (Or.inl ⟨loop_read_fail P cmd n res l hw hr, rfl, Or.inl rfl⟩)
    | some f =>
      cases hm : regexSearch (inputOf f) with
      | none => exact Or.inr (Or.inl ⟨loop_no_match P cmd n res l f hw hr hm, rfl, Or.inr ⟨f, rfl, hm⟩⟩)
      | some tok =>
        cases hv : stof tok with
        | none => exact Or.inr (Or.inr (Or.inr ⟨loop_throw P cmd n res l f tok hw hr hm hv, rfl, f, tok, rfl, hm, hv⟩))
        | some v => exact Or.inr (Or.inr (Or.inl ⟨⟨v, loop_value P cmd n res l f tok v hw hr hm hv⟩, rfl⟩))

theorem sendCommandLoop_res_of_fail {σ : Type} (P : Port σ) (cmd : Bytes) (n : Nat) (res : ℚ)
    (l : Line σ) (h : (sendCommandLoop P cmd n res l).ok = false) :
    (sendCommandLoop P cmd n res l).res = res := by
  induction n generalizing l with
  | zero => rfl
  | succ n ih =>
    rcases loop_cases P cmd n res l with ⟨e, _⟩ | ⟨e, _⟩ | ⟨⟨v, e⟩, _⟩ | ⟨e, _⟩
    · rw [e]
    · rw [e] at h ⊢; exact ih _ h
    · rw [e] at h; simp at h
    · rw [e]

theorem sendCommand_res_of_fail {σ : Type} (P : Port σ) (cmd : Bytes) (res : ℚ)
    (l : Line σ) (h : (sendCommand P cmd res l).ok = false) :
    (sendCommand P cmd res l).res = res :=
  sendCommandLoop_res_of_fail P cmd 3 res l h

/-! ## The rotator state after a tick -/

theorem setShutterState_domeState (d : Dome) (v : ShutterState) :
    (setShutterState d v).domeState = d.domeState := rfl

theorem setShutterText_domeState (d : Dome) (t : String) :
    (setShutterText d t).domeState = d.domeState := rfl

theorem setRotatorText_domeState (d : Dome) (t : String) :
    (setRotatorText d t).domeState = d.domeState := rfl

theorem setDomeState_domeState (d : Dome) (v : DomeState) :
    (setDomeState d v).domeState = v := rfl

theorem ite_domeState (c : Prop) [Decidable c] (a b : Dome) :
    (if c then a else b).domeState = if c then a.domeState else b.domeState := by
  split <;> rfl

theorem rotatorGetAz_domeState {σ : Type} (P : Port σ) (d : Dome) (l : Line σ) :
    (rotatorGetAz P d l).dome.domeState = d.domeState := by
  unfold rotatorGetAz
  simp only
  split <;> rfl

theorem checkShutter_domeState (H : Header) (w : Nat) (d : Dome) :
    (checkShutter H w d).domeState = d.domeState := by
  unfold checkShutter
  simp only [ite_domeState, setShutterState_domeState, setShutterText_domeState, ite_self]

theorem updateVoltage_domeState {σ : Type} (P : Port σ) (res : ℚ) (d : Dome) (l : Line σ) :
    (updateVoltage P res d l).1.domeState = d.domeState := by
  unfold updateVoltage shutterIsUp
  simp only
  repeat' split
  all_goals rfl

/-- The rotator state a tick leaves depends on the state before and the status
word through the three rotator blocks alone. -/
theorem TimerHit_domeState {σ : Type} (H : Header) (P : Port σ) (d : Dome) (l : Line σ)
    (hc : d.connected = true) :
    (TimerHit H P d l).1.domeState =
      (checkParking (checkRotator H (statusWord P l)
        (rotatorGetAz P (checkUnsafe H (statusWord P l) d)
          (sendCommand P "!dome status#".toList 0 l).line).dome)).domeState := by
  unfold TimerHit statusWord
  simp only [hc, Bool.true_eq_false, if_false]
  rw [updateVoltage_domeState, checkShutter_domeState]

/-- The rotator blocks as a function of the state alone. -/
theorem checkRotator_domeState (H : Header) (w : Nat) (d : Dome) :
    (checkRotator H w d).domeState =
      if d.domeState = DOME_MOVING ∨ d.domeState = DOME_UNPARKING then
        if bitSet w H.DOME_STATUS_ROTATOR_ERROR then DOME_ERROR
        else if bitSet w H.DOME_STATUS_ROTATOR_PARKED then DOME_PARKED
        else if bitSet w H.DOME_STATUS_ROTATOR_HOME then DOME_IDLE
        else if w &&& H.DOME_STATUS_ROTATOR_MOVING = 0 then DOME_IDLE
        else d.domeState
      else d.domeState := by
  unfold checkRotator
  simp only [ite_domeState, setRotatorText_domeState, setDomeState_domeState]

theorem checkParking_domeState (d : Dome) :
    (checkParking d).domeState = if d.domeState = DOME_PARKING then DOME_PARKED else d.domeState := by
  unfold checkParking
  simp only [ite_domeState, setRotatorText_domeState, setDomeState_domeState]

theorem checkUnsafe_domeState (H : Header) (w : Nat) (d : Dome) :
    (checkUnsafe H w d).domeState =
      if bitSet w H.DOME_STATUS_UNSAFE_CW = true ∨ bitSet w H.DOME_STATUS_UNSAFE_RG = true
      then DOME_ERROR else d.domeState := by
  unfold checkUnsafe
  simp only [ite_domeState, setDomeState_domeState]
  repeat' split
  all_goals simp_all

theorem toUInt16_zero : toUInt16 0 = 0 := by decide

theorem bitSet_zero (m : Nat) : bitSet 0 m = false := by
  simp [bitSet]

theorem statusWord_of_fail {σ : Type} (P : Port σ) (l : Line σ)
    (hf : (sendCommand P "!dome status#".toList 0 l).ok = false) : statusWord P l = 0 := by
  unfold statusWord
  rw [sendCommand_res_of_fail P _ 0 l hf, toUInt16_zero]

theorem ite_shutterState (c : Prop) [Decidable c] (a b : Dome) :
    (if c then a else b).shutterState = if c then a.shutterState else b.shutterState := by
  split <;> rfl

theorem setShutterState_shutterState (d : Dome) (v : ShutterState) :
    (setShutterState d v).shutterState = v := rfl

theorem setShutterText_shutterState (d : Dome) (t : String) :
    (setShutterText d t).shutterState = d.shutterState := rfl

theorem setRotatorText_shutterState (d : Dome) (t : String) :
    (setRotatorText d t).shutterState = d.shutterState := rfl

theorem setDomeState_shutterState (d : Dome) (v : DomeState) :
    (setDomeState d v).shutterState = d.shutterState := rfl

theorem rotatorGetAz_shutterState {σ : Type} (P : Port σ) (d : Dome) (l : Line σ) :
    (rotatorGetAz P d l).dome.shutterState = d.shutterState := by
  unfold rotatorGetAz
  simp only
  split <;> rfl

theorem updateVoltage_shutterState {σ : Type} (P : Port σ) (res : ℚ) (d : Dome) (l : Line σ) :
    (updateVoltage P res d l).1.shutterState = d.shutterState := by
  unfold updateVoltage shutterIsUp
  simp only
  repeat' split
  all_goals rfl

theorem checkUnsafe_shutterState (H : Header) (w : Nat) (d : Dome) :
    (checkUnsafe H w d).shutterState = d.shutterState := by
  unfold checkUnsafe
  simp only [ite_shutterState, setDomeState_shutterState, ite_self]

theorem checkRotator_shutterState (H : Header) (w : Nat) (d : Dome) :
    (checkRotator H w d).shutterState = d.shutterState := by
  unfold checkRotator
  simp only [ite_shutterState, setDomeState_shutterState, setRotatorText_shutterState, ite_self]

theorem checkParking_shutterState (d : Dome) :
    (checkParking d).shutterState = d.shutterState := by
  unfold checkParking
  simp only [ite_shutterState, setDomeState_shutterState, setRotatorText_shutterState, ite_self]

/-- The shutter block as a function of the shutter state alone. -/
theorem checkShutter_shutterState (H : Header) (w : Nat) (d : Dome) :
    (checkShutter H w d).shutterState =
      if d.shutterState = SHUTTER_MOVING then
        if bitSet w H.DOME_STATUS_SHUTTER_COMM then SHUTTER_ERROR
        else if bitSet w H.DOME_STATUS_SHUTTER_ERROR then SHUTTER_ERROR
        else if bitSet w H.DOME_STATUS_SHUTTER_CLOSING then SHUTTER_MOVING
        else if bitSet w H.DOME_STATUS_SHUTTER_OPENING then SHUTTER_MOVING
        else if bitSet w H.DOME_STATUS_SHUTTER_OPENED then SHUTTER_OPENED
        else if bitSet w H.DOME_STATUS_SHUTTER_CLOSED then SHUTTER_CLOSED
        else if bitSet w H.DOME_STATUS_SHUTTER_MOVING then SHUTTER_MOVING
        else d.shutterState
      else d.shutterState := by
  unfold checkShutter
  simp only [ite_shutterState, setShutterState_shutterState, setShutterText_shutterState]

/-- The shutter state a tick leaves is the one the shutter block computes from
the state before and the status word. -/
theorem TimerHit_shutterState {σ : Type} (H : Header) (P : Port σ) (d : Dome) (l : Line σ)
    (hc : d.connected = true) :
    (TimerHit H P d l).1.shutterState = (checkShutter H (statusWord P l) d).shutterState := by
  unfold TimerHit statusWord
  simp only [hc, Bool.true_eq_false, if_false]
  rw [updateVoltage_shutterState, checkShutter_shutterState, checkShutter_shutterState,
    checkParking_shutterState, checkRotator_shutterState, rotatorGetAz_shutterState,
    checkUnsafe_shutterState]

/-- C1 (the code departs from the claim): when the status query fails the tick
still runs the rotator blocks, on the status word 0.  A rotator that was Moving
(or Unparking) is set to Idle and one that was Parking is set to Parked; the
shutter state does stay as it was. -/
theorem timerHit_failed_status_moves_rotator {σ : Type} (H : Header) (P : Port σ) (d : Dome)
    (l : Line σ) (hc : d.connected = true)
    (hf : (sendCommand P "!dome status#".toList 0 l).ok = false) :
    (d.domeState = DOME_MOVING → (TimerHit H P d l).1.domeState = DOME_IDLE) ∧
    (d.domeState = DOME_UNPARKING → (TimerHit H P d l).1.domeState = DOME_IDLE) ∧
    (d.domeState = DOME_PARKING → (TimerHit H P d l).1.domeState = DOME_PARKED) ∧
    (TimerHit H P d l).1.shutterState = d.shutterState := by
  rw [TimerHit_domeState H P d l hc, TimerHit_shutterState H P d l hc, statusWord_of_fail P l hf,
    checkParking_domeState, checkRotator_domeState, rotatorGetAz_domeState,
    checkUnsafe_domeState, checkShutter_shutterState]
  simp only [bitSet_zero, Nat.zero_and]
  refine ⟨fun h => ?_, fun h => ?_, fun h => ?_, ?_⟩ <;> simp [*]

/-- C1, at a concrete input: the write of the status query fails while the
rotator is Moving, and the tick leaves it Idle. -/
theorem timerHit_failed_status_moves_rotator_witness :
    (sendCommand scriptedPort "!dome status#".toList 0 (freshLine [] [])).ok = false ∧
    (TimerHit beaverHeader scriptedPort (domeIn DOME_MOVING SHUTTER_MOVING)
      (freshLine [] [])).1.domeState = DOME_IDLE :=
  ⟨by decide, (timerHit_failed_status_moves_rotator beaverHeader scriptedPort
    (domeIn DOME_MOVING SHUTTER_MOVING) (freshLine [] []) rfl (by decide)).1 rfl⟩

/-- C2: whenever the status word has the counterweight-unsafe or the
rotation-guard-unsafe bit set, the rotator state after the tick is Error,
whatever the state before and whatever the other bits. -/
theorem timerHit_unsafe_forces_error {σ : Type} (H : Header) (P : Port σ) (d : Dome)
    (l : Line σ) (hc : d.connected = true)
    (hu : bitSet (statusWord P l) H.DOME_STATUS_UNSAFE_CW = true ∨
      bitSet (statusWord P l) H.DOME_STATUS_UNSAFE_RG = true) :
    (TimerHit H P d l).1.domeState = DOME_ERROR := by
  rw [TimerHit_domeState H P d l hc, checkParking_domeState,
    checkRotator_domeState, rotatorGetAz_domeState, checkUnsafe_domeState]
  simp [hu]

/-- C2, at a concrete input: the status word 0x0820 has the counterweight-unsafe
and the rotator-at-home bits set, the rotator is Moving, and the tick leaves it
in Error. -/
theorem timerHit_unsafe_forces_error_witness :
    statusWord scriptedPort (freshLine [true] [some "OK:2080#".toList]) = 0x0820 ∧
    (TimerHit beaverHeader scriptedPort (domeIn DOME_MOVING SHUTTER_UNKNOWN)
      (freshLine [true] [some "OK:2080#".toList])).1.domeState = DOME_ERROR :=
  ⟨by decide!, timerHit_unsafe_forces_error beaverHeader scriptedPort
    (domeIn DOME_MOVING SHUTTER_UNKNOWN) (freshLine [true] [some "OK:2080#".toList]) rfl
    (Or.inl (by decide!))⟩

theorem runQuery_domeState {σ : Type} (H : Header) (P : Port σ) (c : Query) (d : Dome)
    (l : Line σ) : (runQuery H P c d l).dome.domeState = d.domeState := by
  cases c <;>
    simp only [runQuery, discard, rotatorGetAz, rotatorSyncAZ, rotatorSetHome, rotatorSetParkAz,
      rotatorIsHome, rotatorIsParked, shutterIsUp, abortAll, shutterAbort, shutterFindHome,
      ControlShutter, sendOnly]
  all_goals (repeat' split)
  all_goals rfl

theorem runCommand_domeState {σ : Type} (H : Header) (P : Port σ) (c : Command) (d : Dome)
    (l : Line σ) :
    (runCommand H P c d l).dome.domeState =
      match c with
      | .gotoPark => DOME_PARKING
      | .unPark => DOME_IDLE
      | .setPark => DOME_PARKED
      | _ => DOME_MOVING := by
  cases c <;>
    simp only [runCommand, discard, rotatorGotoAz, rotatorGotoHome, rotatorGotoPark,
      rotatorFindHome, rotatorMeasureHome, MoveAbs, rotatorUnPark, rotatorSetPark, sendOnly]
  all_goals (repeat' split)
  all_goals rfl

theorem ite_rotatorStatus (c : Prop) [Decidable c] (a b : Dome) :
    (if c then a else b).rotatorStatus = if c then a.rotatorStatus else b.rotatorStatus := by
  split <;> rfl

theorem setRotatorText_rotatorStatus (d : Dome) (t : String) :
    (setRotatorText d t).rotatorStatus = t := rfl

theorem setDomeState_rotatorStatus (d : Dome) (v : DomeState) :
    (setDomeState d v).rotatorStatus = d.rotatorStatus := rfl

theorem setShutterState_rotatorStatus (d : Dome) (v : ShutterState) :
    (setShutterState d v).rotatorStatus = d.rotatorStatus := rfl

theorem setShutterText_rotatorStatus (d : Dome) (t : String) :
    (setShutterText d t).rotatorStatus = d.rotatorStatus := rfl

theorem rotatorGetAz_rotatorStatus {σ : Type} (P : Port σ) (d : Dome) (l : Line σ) :
    (rotatorGetAz P d l).dome.rotatorStatus = d.rotatorStatus := by
  unfold rotatorGetAz
  simp only
  split <;> rfl

theorem updateVoltage_rotatorStatus {σ : Type} (P : Port σ) (res : ℚ) (d : Dome) (l : Line σ) :
    (updateVoltage P res d l).1.rotatorStatus = d.rotatorStatus := by
  unfold updateVoltage shutterIsUp
  simp only
  repeat' split
  all_goals rfl

theorem checkShutter_rotatorStatus (H : Header) (w : Nat) (d : Dome) :
    (checkShutter H w d).rotatorStatus = d.rotatorStatus := by
  unfold checkShutter
  simp only [ite_rotatorStatus, setShutterState_rotatorStatus, setShutterText_rotatorStatus,
    ite_self]

theorem checkUnsafe_rotatorStatus (H : Header) (w : Nat) (d : Dome) :
    (checkUnsafe H w d).rotatorStatus = d.rotatorStatus := by
  unfold checkUnsafe
  simp only [ite_rotatorStatus, setDomeState_rotatorStatus, ite_self]

theorem checkRotator_rotatorStatus (H : Header) (w : Nat) (d : Dome) :
    (checkRotator H w d).rotatorStatus =
      if d.domeState = DOME_MOVING ∨ d.domeState = DOME_UNPARKING then
        if bitSet w H.DOME_STATUS_ROTATOR_ERROR then "Error"
        else if bitSet w H.DOME_STATUS_ROTATOR_PARKED then "At Park/Idle"
        else if bitSet w H.DOME_STATUS_ROTATOR_HOME then "At Home/Idle"
        else if w &&& H.DOME_STATUS_ROTATOR_MOVING = 0 then "Idle"
        else d.rotatorStatus
      else d.rotatorStatus := by
  unfold checkRotator
  simp only [ite_rotatorStatus, setRotatorText_rotatorStatus, setDomeState_rotatorStatus]

theorem checkParking_rotatorStatus (d : Dome) :
    (checkParking d).rotatorStatus =
      if d.domeState = DOME_PARKING then "Parked" else d.rotatorStatus := by
  unfold checkParking
  simp only [ite_rotatorStatus, setRotatorText_rotatorStatus]

theorem TimerHit_rotatorStatus {σ : Type} (H : Header) (P : Port σ) (d : Dome) (l : Line σ)
    (hc : d.connected = true) :
    (TimerHit H P d l).1.rotatorStatus =
      (checkParking (checkRotator H (statusWord P l)
        (rotatorGetAz P (checkUnsafe H (statusWord P l) d)
          (sendCommand P "!dome status#".toList 0 l).line).dome)).rotatorStatus := by
  unfold TimerHit statusWord
  simp only [hc, Bool.true_eq_false, if_false]
  rw [updateVoltage_rotatorStatus, checkShutter_rotatorStatus]

/-- C3 as stated fails: with the rotator Moving, no unsafe bit, the rotator-moving
bit clear and the rotator-parked bit set (status word 0x1000) the first rule of
the list would give Idle, but the tick leaves the rotator Parked. -/
theorem timerHit_first_match_counterexample :
    statusWord scriptedPort (freshLine [true] [some "OK:4096#".toList]) = 0x1000 ∧
    0x1000 &&& beaverHeader.DOME_STATUS_ROTATOR_MOVING = 0 ∧
    bitSet 0x1000 beaverHeader.DOME_STATUS_UNSAFE_CW = false ∧
    bitSet 0x1000 beaverHeader.DOME_STATUS_UNSAFE_RG = false ∧
    (TimerHit beaverHeader scriptedPort (domeIn DOME_MOVING SHUTTER_UNKNOWN)
      (freshLine [true] [some "OK:4096#".toList])).1.domeState = DOME_PARKED ∧
    (TimerHit beaverHeader scriptedPort (domeIn DOME_MOVING SHUTTER_UNKNOWN)
      (freshLine [true] [some "OK:4096#".toList])).1.domeState ≠ DOME_IDLE := by
  decide!

/-- C3, amended: with the rotator Moving and no unsafe bit set, the state after
the tick is the one set by the last matching rule in the order of the code
(moving bit clear: Idle; at-home bit: Idle with the text "At Home/Idle"; parked
bit: Parked; mechanical-error bit: Error), and Moving with the text unchanged
when no rule matches.  In particular a clear moving bit gives Idle when none of
the parked and mechanical-error bits is set. -/
theorem timerHit_moving_last_match {σ : Type} (H : Header) (P : Port σ) (d : Dome)
    (l : Line σ) (hc : d.connected = true) (hm : d.domeState = DOME_MOVING)
    (hcw : bitSet (statusWord P l) H.DOME_STATUS_UNSAFE_CW = false)
    (hrg : bitSet (statusWord P l) H.DOME_STATUS_UNSAFE_RG = false) :
    (TimerHit H P d l).1.domeState =
      (if bitSet (statusWord P l) H.DOME_STATUS_ROTATOR_ERROR then DOME_ERROR
      else if bitSet (statusWord P l) H.DOME_STATUS_ROTATOR_PARKED then DOME_PARKED
      else if bitSet (statusWord P l) H.DOME_STATUS_ROTATOR_HOME then DOME_IDLE
      else if statusWord P l &&& H.DOME_STATUS_ROTATOR_MOVING = 0 then DOME_IDLE
      else DOME_MOVING) ∧
    (TimerHit H P d l).1.rotatorStatus =
      (if bitSet (statusWord P l) H.DOME_STATUS_ROTATOR_ERROR then "Error"
      else if bitSet (statusWord P l) H.DOME_STATUS_ROTATOR_PARKED then "At Park/Idle"
      else if bitSet (statusWord P l) H.DOME_STATUS_ROTATOR_HOME then "At Home/Idle"
      else if statusWord P l &&& H.DOME_STATUS_ROTATOR_MOVING = 0 then "Idle"
      else d.rotatorStatus) := by
  have h1 : (rotatorGetAz P (checkUnsafe H (statusWord P l) d)
      (sendCommand P "!dome status#".toList 0 l).line).dome.domeState = DOME_MOVING := by
    rw [rotatorGetAz_domeState, checkUnsafe_domeState]
    simp [hcw, hrg, hm]
  rw [TimerHit_domeState H P d l hc, TimerHit_rotatorStatus H P d l hc, checkParking_domeState,
    checkParking_rotatorStatus, checkRotator_domeState, checkRotator_rotatorStatus, h1,
    rotatorGetAz_rotatorStatus, checkUnsafe_rotatorStatus]
  simp only [true_or, if_true]
  constructor
  · repeat' split
    all_goals simp_all
  · repeat' split
    all_goals simp_all

/-- C3 amended, at a concrete input: moving bit clear and at-home bit set
(status word 0x0800) leaves the rotator Idle with the text "At Home/Idle". -/
theorem timerHit_moving_last_match_witness :
    (TimerHit beaverHeader scriptedPort (domeIn DOME_MOVING SHUTTER_UNKNOWN)
      (freshLine [true] [some "OK:2048#".toList])).1.domeState = DOME_IDLE ∧
    (TimerHit beaverHeader scriptedPort (domeIn DOME_MOVING SHUTTER_UNKNOWN)
      (freshLine [true] [some "OK:2048#".toList])).1.rotatorStatus = "At Home/Idle" :=
  have h := timerHit_moving_last_match beaverHeader scriptedPort
    (domeIn DOME_MOVING SHUTTER_UNKNOWN) (freshLine [true] [some "OK:2048#".toList]) rfl rfl
    (by decide!) (by decide!)
  ⟨h.1.trans (by decide!), h.2.trans (by decide!)⟩

/-- C4 as stated fails in its last clause: `rotatorUnPark`, which is no motion
command and sends nothing, takes the rotator out of Error (to Idle), and so does
`rotatorSetPark()` (to Parked). -/
theorem error_left_without_motion_counterexample :
    (domeIn DOME_ERROR SHUTTER_UNKNOWN).domeState = DOME_ERROR ∧
    (rotatorUnPark (domeIn DOME_ERROR SHUTTER_UNKNOWN) (freshLine [] [])).dome.domeState
      = DOME_IDLE ∧
    (rotatorSetPark scriptedPort (domeIn DOME_ERROR SHUTTER_UNKNOWN)
      (freshLine [] [])).dome.domeState = DOME_PARKED := by
  decide

/-- C4, amended: a rotator in Error is still in Error after a poll tick, for
every line behaviour (so for every status word and also when the status query
fails); every call in `Query` leaves it in Error too; the calls in `Command`
(the motion commands, and also `rotatorUnPark` and `rotatorSetPark()`) are the
ones that take it out of Error. -/
theorem error_preserved_by_tick {σ : Type} (H : Header) (P : Port σ) (d : Dome) (l : Line σ)
    (he : d.domeState = DOME_ERROR) :
    (TimerHit H P d l).1.domeState = DOME_ERROR ∧
    (∀ q : Query, (runQuery H P q d l).dome.domeState = DOME_ERROR) ∧
    (∀ c : Command, (runCommand H P c d l).dome.domeState ≠ DOME_ERROR) := by
  refine ⟨?_, fun q => ?_, fun c => ?_⟩
  · cases hc : d.connected with
    | false => simp [TimerHit, hc, he]
    | true =>
      rw [TimerHit_domeState H P d l hc, checkParking_domeState, checkRotator_domeState,
        rotatorGetAz_domeState, checkUnsafe_domeState]
      simp [he]
  · rw [runQuery_domeState, he]
  · rw [runCommand_domeState]
    cases c <;> simp

/-- C4 amended, at a concrete input: a tick that reads the status word 0x0800
(rotator at home, no error bit) with the rotator in Error leaves it in Error. -/
theorem error_preserved_by_tick_witness :
    (TimerHit beaverHeader scriptedPort (domeIn DOME_ERROR SHUTTER_UNKNOWN)
      (freshLine [true] [some "OK:2048#".toList])).1.domeState = DOME_ERROR :=
  (error_preserved_by_tick beaverHeader scriptedPort (domeIn DOME_ERROR SHUTTER_UNKNOWN)
    (freshLine [true] [some "OK:2048#".toList]) rfl).1

/-! ## Counting the calls of one command -/

theorem writes_afterWrite {σ : Type} (P : Port σ) (cmd : Bytes) (l : Line σ) :
    writes (afterWrite P cmd l).trace = writes l.trace + 1 := by
  simp [writes, afterWrite, List.countP_append]

theorem reads_afterWrite {σ : Type} (P : Port σ) (cmd : Bytes) (l : Line σ) :
    reads (afterWrite P cmd l).trace = reads l.trace := by
  simp [reads, afterWrite, List.countP_append]

theorem writes_afterRead {σ : Type} (P : Port σ) (cmd : Bytes) (l : Line σ) :
    writes (afterRead P cmd l).trace = writes l.trace + 1 := by
  simp [writes, afterRead, afterWrite, List.countP_append]

theorem reads_afterRead {σ : Type} (P : Port σ) (cmd : Bytes) (l : Line σ) :
    reads (afterRead P cmd l).trace = reads l.trace + 1 := by
  simp [reads, afterRead, afterWrite, List.countP_append]

/-- No call makes more writes, or more reads, than it has iterations. -/
theorem sendCommandLoop_calls_le {σ : Type} (P : Port σ) (cmd : Bytes) (n : Nat) (res : ℚ)
    (l : Line σ) :
    writes (sendCommandLoop P cmd n res l).line.trace ≤ writes l.trace + n ∧
    reads (sendCommandLoop P cmd n res l).line.trace ≤ reads l.trace + n := by
  induction n generalizing l with
  | zero => exact ⟨Nat.le_refl _, Nat.le_refl _⟩
  | succ n ih =>
    rcases loop_cases P cmd n res l with ⟨e, _⟩ | ⟨e, _⟩ | ⟨⟨v, e⟩, _⟩ | ⟨e, _⟩
    · rw [e]; simp only [writes_afterWrite, reads_afterWrite]; omega
    · rw [e]
      have h := ih (afterRead P cmd l)
      rw [writes_afterRead, reads_afterRead] at h
      omega
    · rw [e]; simp only [writes_afterRead, reads_afterRead]; omega
    · rw [e]; simp only [writes_afterRead, reads_afterRead]; omega

/-- When every write succeeds and every read either fails or delivers a frame
without a token, all `n` iterations run: `n` writes, `n` reads, and the call
fails with `res` as it was. -/
theorem sendCommandLoop_all_retried {σ : Type} (P : Port σ) (cmd : Bytes) (n : Nat) (res : ℚ)
    (l : Line σ) (hw : ∀ s c, (P.tty_write_string s c).1 = true)
    (hr : ∀ s f, (P.tty_nread_section s).1 = some f → regexSearch (inputOf f) = none) :
    (sendCommandLoop P cmd n res l).ok = false ∧ (sendCommandLoop P cmd n res l).res = res ∧
    writes (sendCommandLoop P cmd n res l).line.trace = writes l.trace + n ∧
    reads (sendCommandLoop P cmd n res l).line.trace = reads l.trace + n := by
  induction n generalizing l with
  | zero => exact ⟨rfl, rfl, rfl, rfl⟩
  | succ n ih =>
    have e : sendCommandLoop P cmd (n + 1) res l
        = sendCommandLoop P cmd n res (afterRead P cmd l) := by
      cases hf : frameRead P cmd l with
      | none => exact loop_read_fail P cmd n res l (hw _ _) hf
      | some f => exact loop_no_match P cmd n res l f (hw _ _) hf (hr _ f hf)
    rw [e]
    obtain ⟨h1, h2, h3, h4⟩ := ih (afterRead P cmd l)
    rw [writes_afterRead] at h3
    rw [reads_afterRead] at h4
    exact ⟨h1, h2, by omega, by omega⟩

/-- C5: when every write succeeds and every read fails, `sendCommand` returns
failure after exactly three writes and three reads (its trace grows by write,
read, write, read, write, read and nothing more); and whatever the line does, one
call makes at most three writes. -/
theorem sendCommand_three_attempts {σ : Type} (P : Port σ) (cmd : Bytes) (res : ℚ)
    (l : Line σ) :
    ((∀ s c, (P.tty_write_string s c).1 = true) → (∀ s, (P.tty_nread_section s).1 = none) →
      (sendCommand P cmd res l).ok = false ∧
      (sendCommand P cmd res l).line.trace = l.trace ++
        [Event.write cmd true, Event.read none, Event.write cmd true, Event.read none,
          Event.write cmd true, Event.read none] ∧
      writes (sendCommand P cmd res l).line.trace = writes l.trace + 3 ∧
      reads (sendCommand P cmd res l).line.trace = reads l.trace + 3) ∧
    writes (sendCommand P cmd res l).line.trace ≤ writes l.trace + 3 := by
  refine ⟨fun hw hr => ?_, (sendCommandLoop_calls_le P cmd 3 res l).1⟩
  have h := sendCommandLoop_all_retried P cmd 3 res l hw (fun s f hf => by simp [hr s] at hf)
  refine ⟨h.1, ?_, h.2.2.1, h.2.2.2⟩
  simp [sendCommand, sendCommandLoop, hw, hr]

/-- C5, at a concrete input: on a line where every write succeeds and every
read times out, the call fails after three writes and three reads. -/
theorem sendCommand_three_attempts_witness :
    (sendCommand deafPort "!dome getaz#".toList 0 ⟨(), []⟩).ok = false ∧
    writes (sendCommand deafPort "!dome getaz#".toList 0 ⟨(), []⟩).line.trace = 3 ∧
    reads (sendCommand deafPort "!dome getaz#".toList 0 ⟨(), []⟩).line.trace = 3 :=
  have h := (sendCommand_three_attempts deafPort "!dome getaz#".toList 0 ⟨(), []⟩).1
    (fun _ _ => rfl) (fun _ => rfl)
  ⟨h.1, h.2.2.1, h.2.2.2⟩

/-! ## A failed write ends the call -/

theorem trace_afterWrite {σ : Type} (P : Port σ) (cmd : Bytes) (l : Line σ) :
    (afterWrite P cmd l).trace = l.trace ++ [Event.write cmd (P.tty_write_string l.dev cmd).1] :=
  rfl

theorem trace_afterRead {σ : Type} (P : Port σ) (cmd : Bytes) (l : Line σ) :
    (afterRead P cmd l).trace = l.trace ++
      [Event.write cmd (P.tty_write_string l.dev cmd).1, Event.read (frameRead P cmd l)] := by
  simp [afterRead, afterWrite, frameRead]

/-- A call only appends to the trace. -/
theorem sendCommandLoop_trace_prefix {σ : Type} (P : Port σ) (cmd : Bytes) (n : Nat) (res : ℚ)
    (l : Line σ) : ∃ ev, (sendCommandLoop P cmd n res l).line.trace = l.trace ++ ev := by
  induction n generalizing l with
  | zero => exact ⟨[], by simp [sendCommandLoop]⟩
  | succ n ih =>
    rcases loop_cases P cmd n res l with ⟨e, _⟩ | ⟨e, _⟩ | ⟨⟨v, e⟩, _⟩ | ⟨e, _⟩
    · rw [e]; exact ⟨_, trace_afterWrite P cmd l⟩
    · rw [e]
      obtain ⟨ev, h⟩ := ih (afterRead P cmd l)
      rw [h, trace_afterRead, List.append_assoc]
      exact ⟨_, rfl⟩
    · rw [e]; exact ⟨_, trace_afterRead P cmd l⟩
    · rw [e]; exact ⟨_, trace_afterRead P cmd l⟩

/-- Wherever a failed write stands among the events a call appended, nothing
follows it, the call returned `false` and `res` is as it was. -/
theorem sendCommandLoop_failed_write_last {σ : Type} (P : Port σ) (cmd : Bytes) (n : Nat)
    (res : ℚ) (l : Line σ) (pre post : List Event)
    (h : (sendCommandLoop P cmd n res l).line.trace
      = l.trace ++ (pre ++ Event.write cmd false :: post)) :
    post = [] ∧ (sendCommandLoop P cmd n res l).ok = false ∧
      (sendCommandLoop P cmd n res l).res = res := by
  induction n generalizing l pre with
  | zero =>
    simp [sendCommandLoop] at h
  | succ n ih =>
    rcases loop_cases P cmd n res l with ⟨e, hw⟩ | ⟨e, hw, _⟩ | ⟨⟨v, e⟩, hw⟩ | ⟨e, hw, _⟩
    · rw [e] at h ⊢
      rw [trace_afterWrite, hw, List.append_cancel_left_eq] at h
      cases pre with
      | nil => simp at h; exact ⟨h, rfl, rfl⟩
      | cons p pre => simp at h
    · rw [e] at h ⊢
      obtain ⟨ev, hev⟩ := sendCommandLoop_trace_prefix P cmd n res (afterRead P cmd l)
      rw [hev, trace_afterRead, hw, List.append_assoc, List.append_cancel_left_eq] at h
      match pre, h with
      | [], h => simp at h
      | [p], h => simp at h
      | p :: p2 :: pre, h =>
        simp only [List.cons_append, List.cons.injEq] at h
        obtain ⟨-, -, h⟩ := h
        refine ih (afterRead P cmd l) pre ?_
        rw [hev, ← h, List.nil_append]
    · rw [e] at h
      rw [trace_afterRead, hw, List.append_cancel_left_eq] at h
      match pre, h with
      | [], h => simp at h
      | [p], h => simp at h
      | p :: p2 :: pre, h => simp at h
    · rw [e] at h
      rw [trace_afterRead, hw, List.append_cancel_left_eq] at h
      match pre, h with
      | [], h => simp at h
      | [p], h => simp at h
      | p :: p2 :: pre, h => simp at h

/-- C6: a failed write ends the call at once.  In any iteration, the first or a
retry, a write that fails makes the loop return `false` with `res` untouched and
the failed write as the last event; and in the trace of a whole `sendCommand`
call nothing, neither a read nor another write, comes after a failed write. -/
theorem sendCommand_write_failure_final {σ : Type} (P : Port σ) (cmd : Bytes) (res : ℚ)
    (l : Line σ) :
    (∀ n, (P.tty_write_string l.dev cmd).1 = false →
      sendCommandLoop P cmd (n + 1) res l
        = ⟨false, res, ⟨(P.tty_write_string l.dev cmd).2, l.trace ++ [Event.write cmd false]⟩⟩) ∧
    (∀ pre post, (sendCommand P cmd res l).line.trace
        = l.trace ++ (pre ++ Event.write cmd false :: post) →
      post = [] ∧ (sendCommand P cmd res l).ok = false ∧ (sendCommand P cmd res l).res = res) := by
  refine ⟨fun n hw => ?_, fun pre post h => sendCommandLoop_failed_write_last P cmd 3 res l pre post h⟩
  rw [loop_write_fail P cmd n res l hw, afterWrite, hw]

/-- C6, at a concrete input: the first exchange times out on the read, the write
of the retry fails; the call returns `false`, `res` keeps its value 7, and the
trace ends with the failed write although the script had a frame ready. -/
theorem sendCommand_write_failure_final_witness :
    (sendCommand scriptedPort "!dome getaz#".toList 7
      (freshLine [true, false, true] [none, some "OK:1#".toList])).line.trace
      = [Event.write "!dome getaz#".toList true, Event.read none,
          Event.write "!dome getaz#".toList false] ∧
    (sendCommand scriptedPort "!dome getaz#".toList 7
      (freshLine [true, false, true] [none, some "OK:1#".toList])).ok = false ∧
    (sendCommand scriptedPort "!dome getaz#".toList 7
      (freshLine [true, false, true] [none, some "OK:1#".toList])).res = 7 :=
  ⟨by decide, ((sendCommand_write_failure_final scriptedPort "!dome getaz#".toList 7
    (freshLine [true, false, true] [none, some "OK:1#".toList])).2
      [Event.write "!dome getaz#".toList true, Event.read none] [] (by decide)).2⟩

/-! ## Frames without a token -/

theorem digitRun_head {s : Bytes} {d : Char} {ds : Bytes} (h : digitRun s = d :: ds) :
    ∃ cs, s = d :: cs ∧ isDigit d = true := by
  cases s with
  | nil => simp [digitRun] at h
  | cons c cs =>
    unfold digitRun at h
    split at h
    · rename_i hc
      simp only [List.cons.injEq] at h
      exact ⟨cs, by rw [h.1], h.1 ▸ hc⟩
    · simp at h

theorem matchNumber_head {s tok : Bytes} (h : matchNumber s = some tok) :
    ∃ d cs, s = d :: cs ∧ isDigit d = true := by
  unfold matchNumber at h
  split at h
  · simp at h
  · rename_i d ds hd
    obtain ⟨cs, h1, h2⟩ := digitRun_head hd
    exact ⟨d, cs, h1, h2⟩

theorem hasColonDigit_of_matchHere {s tok : Bytes} (h : matchHere s = some tok) :
    hasColonDigit s = true := by
  induction s with
  | nil => simp [matchHere] at h
  | cons c cs ih =>
    unfold matchHere at h
    unfold hasColonDigit
    split at h
    · rename_i t ht
      split at ht
      · simp at ht
      · simp only [Option.some.injEq] at h
        subst h
        simp [ih ht]
    · split at h
      · rename_i hc
        obtain ⟨d, ds, h1, h2⟩ := matchNumber_head h
        simp [hc, h1, h2]
      · simp at h

theorem hasColonDigit_of_regexSearch {s tok : Bytes} (h : regexSearch s = some tok) :
    hasColonDigit s = true := by
  induction s with
  | nil => simp [regexSearch] at h
  | cons c cs ih =>
    unfold regexSearch at h
    split at h
    · rename_i t ht
      exact hasColonDigit_of_matchHere ht
    · unfold hasColonDigit
      simp [ih h]

theorem hasColonDigit_append (s u : Bytes) (h : hasColonDigit s = true) :
    hasColonDigit (s ++ u) = true := by
  induction s with
  | nil => simp [hasColonDigit] at h
  | cons c cs ih =>
    unfold hasColonDigit at h
    simp only [Bool.or_eq_true, Bool.and_eq_true] at h
    rw [List.cons_append]
    unfold hasColonDigit
    rcases h with ⟨h1, h2⟩ | h
    · cases cs with
      | nil => simp at h2
      | cons d ds => simp only at h2; simp [h1, h2]
    · simp [ih h]

theorem hasColonDigit_inputOf {f : Bytes} (h : hasColonDigit (inputOf f) = true) :
    hasColonDigit f = true := by
  obtain ⟨u, hu⟩ : inputOf f <+: f :=
    (List.takeWhile_prefix _).trans (List.dropLast_prefix f)
  rw [← hu]
  exact hasColonDigit_append _ u h

/-- A frame without a colon followed by a digit is not matched by the pattern. -/
theorem regexSearch_of_no_colonDigit {f : Bytes} (h : hasColonDigit f = false) :
    regexSearch (inputOf f) = none := by
  cases hs : regexSearch (inputOf f) with
  | none => rfl
  | some tok =>
    rw [hasColonDigit_inputOf (hasColonDigit_of_regexSearch hs)] at h
    cases h

/-- When no read delivers a frame with a token the call fails with `res` as it was. -/
theorem sendCommandLoop_no_token {σ : Type} (P : Port σ) (cmd : Bytes) (n : Nat) (res : ℚ)
    (l : Line σ)
    (hr : ∀ s f, (P.tty_nread_section s).1 = some f → regexSearch (inputOf f) = none) :
    (sendCommandLoop P cmd n res l).ok = false ∧ (sendCommandLoop P cmd n res l).res = res := by
  induction n generalizing l with
  | zero => exact ⟨rfl, rfl⟩
  | succ n ih =>
    rcases loop_cases P cmd n res l with ⟨e, _⟩ | ⟨e, _⟩ | ⟨⟨v, e⟩, hw⟩ | ⟨e, _, f, tok, hf, hm, _⟩
    · rw [e]; exact ⟨rfl, rfl⟩
    · rw [e]; exact ih _
    · exfalso
      cases hf : frameRead P cmd l with
      | none => rw [loop_read_fail P cmd n res l hw hf] at e
                have := (ih (afterRead P cmd l)).1
                rw [e] at this
                cases this
      | some f => rw [loop_no_match P cmd n res l f hw hf (hr _ f hf)] at e
                  have := (ih (afterRead P cmd l)).1
                  rw [e] at this
                  cases this
    · rw [hr _ f hf] at hm
      cases hm

/-- C7 as stated fails: on a line where every write succeeds and every read
delivers the frame `OK#`, which has no numeric token, the call is not over after
one write and one read: it makes three writes and three reads. -/
theorem sendCommand_no_token_retried_counterexample :
    regexSearch (inputOf "OK#".toList) = none ∧
    writes (sendCommand scriptedPort "!dome getaz#".toList 0
      (freshLine [true, true, true, true]
        [some "OK#".toList, some "OK#".toList, some "OK#".toList, some "OK#".toList])).line.trace
      = 3 ∧
    reads (sendCommand scriptedPort "!dome getaz#".toList 0
      (freshLine [true, true, true, true]
        [some "OK#".toList, some "OK#".toList, some "OK#".toList, some "OK#".toList])).line.trace
      = 3 := by
  decide

/-- C7, amended: when the first write and the first read succeed, a token that
`std::stof` cannot convert ends the call with failure after exactly that one
write and one read; a frame with no token is treated as a failed read is, the
call goes on with the second of its three iterations (so writes again); and when
every write succeeds and no frame read has a token, the call fails after three
writes and three reads. -/
theorem sendCommand_parse_failure {σ : Type} (P : Port σ) (cmd : Bytes) (res : ℚ) (l : Line σ)
    (f : Bytes) (hw : (P.tty_write_string l.dev cmd).1 = true)
    (hf : (P.tty_nread_section (P.tty_write_string l.dev cmd).2).1 = some f) :
    (∀ tok, regexSearch (inputOf f) = some tok → stof tok = none →
      sendCommand P cmd res l = ⟨false, res, ⟨(P.tty_nread_section (P.tty_write_string l.dev cmd).2).2,
        l.trace ++ [Event.write cmd true, Event.read (some f)]⟩⟩) ∧
    (regexSearch (inputOf f) = none →
      sendCommand P cmd res l = sendCommandLoop P cmd 2 res
        ⟨(P.tty_nread_section (P.tty_write_string l.dev cmd).2).2,
          l.trace ++ [Event.write cmd true, Event.read (some f)]⟩) ∧
    ((∀ s c, (P.tty_write_string s c).1 = true) →
      (∀ s g, (P.tty_nread_section s).1 = some g → regexSearch (inputOf g) = none) →
      (sendCommand P cmd res l).ok = false ∧
      writes (sendCommand P cmd res l).line.trace = writes l.trace + 3 ∧
      reads (sendCommand P cmd res l).line.trace = reads l.trace + 3) := by
  have hl : afterRead P cmd l = ⟨(P.tty_nread_section (P.tty_write_string l.dev cmd).2).2,
      l.trace ++ [Event.write cmd true, Event.read (some f)]⟩ := by
    simp [afterRead, afterWrite, hw, hf]
  refine ⟨fun tok hm hv => ?_, fun hm => ?_, fun hws hrs => ?_⟩
  · rw [← hl]; exact loop_throw P cmd 2 res l f tok hw hf hm hv
  · rw [← hl]; exact loop_no_match P cmd 2 res l f hw hf hm
  · have h := sendCommandLoop_all_retried P cmd 3 res l hws hrs
    exact ⟨h.1, h.2.2.1, h.2.2.2⟩

/-- C7 amended, at a concrete input: the frame read first carries a token of
forty digits, beyond the range of `float`; the conversion throws and the call
fails after one write and one read, although the script had more to offer. -/
theorem sendCommand_parse_failure_witness :
    sendCommand scriptedPort "!dome getaz#".toList 0
      (freshLine [true, true] [some "OK:1000000000000000000000000000000000000000#".toList,
        some "OK:1#".toList])
      = ⟨false, 0, ⟨([true], [some "OK:1#".toList]),
          [Event.write "!dome getaz#".toList true,
            Event.read (some "OK:1000000000000000000000000000000000000000#".toList)]⟩⟩ :=
  (sendCommand_parse_failure scriptedPort "!dome getaz#".toList 0
    (freshLine [true, true] [some "OK:1000000000000000000000000000000000000000#".toList,
      some "OK:1#".toList])
    "OK:1000000000000000000000000000000000000000#".toList rfl rfl).1
    "1000000000000000000000000000000000000000".toList (by decide) (by decide!)

/-- C9 as stated fails: the frame read first, `OK#`, has no colon followed by a
digit, yet the call returns success, with the value of the frame read on the
retry in `res`. -/
theorem sendCommand_no_token_then_token_counterexample :
    hasColonDigit "OK#".toList = false ∧
    (sendCommand scriptedPort "!dome getaz#".toList 0
      (freshLine [true, true] [some "OK#".toList, some "OK:5#".toList])).ok = true ∧
    (sendCommand scriptedPort "!dome getaz#".toList 0
      (freshLine [true, true] [some "OK#".toList, some "OK:5#".toList])).res = 5 := by
  decide!

/-- C9, amended: when every frame read during the call is without a colon
immediately followed by a decimal digit, `sendCommand` returns failure and leaves
`res` as it was (the model is a total function: nothing is raised). -/
theorem sendCommand_no_colon_digit {σ : Type} (P : Port σ) (cmd : Bytes) (res : ℚ) (l : Line σ)
    (h : ∀ s f, (P.tty_nread_section s).1 = some f → hasColonDigit f = false) :
    (sendCommand P cmd res l).ok = false ∧ (sendCommand P cmd res l).res = res :=
  sendCommandLoop_no_token P cmd 3 res l fun s f hf => regexSearch_of_no_colonDigit (h s f hf)

/-- C9 amended, at a concrete input: every read delivers `ERR:x#`, where the
colon is not followed by a digit; the call fails and `res` keeps its value 7. -/
theorem sendCommand_no_colon_digit_witness :
    (sendCommand mutePort "!dome getaz#".toList 7 ⟨(), []⟩).ok = false ∧
    (sendCommand mutePort "!dome getaz#".toList 7 ⟨(), []⟩).res = 7 :=
  sendCommand_no_colon_digit mutePort "!dome getaz#".toList 7 ⟨(), []⟩
    fun _ f hf => by
      have : f = "ERR:x#".toList := by simpa [mutePort] using hf.symm
      rw [this]; decide

/-! ## Frames that end in a token -/

theorem isDigit_ne_colon {c : Char} (h : isDigit c = true) : (c == ':') = false := by
  cases hc : c == ':' with
  | false => rfl
  | true =>
    rw [beq_iff_eq] at hc
    subst hc
    revert h
    decide

theorem isDigit_ne_dot {c : Char} (h : isDigit c = true) : (c == '.') = false := by
  cases hc : c == '.' with
  | false => rfl
  | true =>
    rw [beq_iff_eq] at hc
    subst hc
    revert h
    decide

theorem isTokenByte_ne_colon {c : Char} (h : isTokenByte c = true) : (c == ':') = false := by
  cases hc : c == ':' with
  | false => rfl
  | true =>
    rw [beq_iff_eq] at hc
    subst hc
    revert h
    decide

theorem isTokenByte_plain {c : Char} (h : isTokenByte c = true) : isPlainByte c = true := by
  unfold isTokenByte at h
  rw [Bool.or_eq_true] at h
  rcases h with h | h
  · rw [beq_iff_eq] at h
    subst h
    decide
  · unfold isPlainByte isLineTerminator
    unfold isDigit at h
    simp only [Bool.and_eq_true, decide_eq_true_eq] at h
    have h1 : c ≠ '\x00' := by
      rintro rfl
      revert h
      decide
    have h2 : c ≠ '\n' := by
      rintro rfl
      revert h
      decide
    have h3 : c ≠ '\r' := by
      rintro rfl
      revert h
      decide
    simp [h1, h2, h3]

theorem digitRun_append {int tail : Bytes} (hi : ∀ c ∈ int, isDigit c = true)
    (ht : ∀ c, tail.head? = some c → isDigit c = false) : digitRun (int ++ tail) = int := by
  induction int with
  | nil =>
    cases tail with
    | nil => rfl
    | cons c cs => simp [digitRun, ht c rfl]
  | cons d ds ih =>
    have hd : isDigit d = true := hi d (List.mem_cons_self _ _)
    rw [List.cons_append, digitRun, if_pos hd, ih fun c hc => hi c (List.mem_cons_of_mem _ hc)]

theorem afterDigits_append {int tail : Bytes} (hi : ∀ c ∈ int, isDigit c = true)
    (ht : ∀ c, tail.head? = some c → isDigit c = false) : afterDigits (int ++ tail) = tail := by
  induction int with
  | nil =>
    cases tail with
    | nil => rfl
    | cons c cs => simp [afterDigits, ht c rfl]
  | cons d ds ih =>
    have hd : isDigit d = true := hi d (List.mem_cons_self _ _)
    rw [List.cons_append, afterDigits, if_pos hd, ih fun c hc => hi c (List.mem_cons_of_mem _ hc)]

theorem dotGroups_self {s : Bytes} (hs : ∀ c ∈ s, isTokenByte c = true) : dotGroups s = s := by
  induction s with
  | nil => rfl
  | cons c cs ih =>
    have hc : (c == '.' || isDigit c) = true := hs c (List.mem_cons_self _ _)
    simp only [dotGroups, hc, if_true]
    rw [ih fun c hc => hs c (List.mem_cons_of_mem _ hc)]

/-- Group 1 of the pattern takes a whole token: digits, then nothing or a point
followed by digits and points. -/
theorem matchNumber_token {int tail : Bytes} (hne : int ≠ [])
    (hi : ∀ c ∈ int, isDigit c = true) (ht : ∀ c, tail.head? = some c → isDigit c = false)
    (htb : ∀ c ∈ tail, isTokenByte c = true) :
    matchNumber (int ++ tail) = some (int ++ tail) := by
  unfold matchNumber
  rw [digitRun_append hi ht, afterDigits_append hi ht, dotGroups_self htb]
  cases int with
  | nil => exact absurd rfl hne
  | cons d ds => rfl

theorem matchHere_no_colon {s : Bytes} (hs : ∀ c ∈ s, (c == ':') = false) : matchHere s = none := by
  induction s with
  | nil => rfl
  | cons c cs ih =>
    unfold matchHere
    rw [ih fun c hc => hs c (List.mem_cons_of_mem _ hc), hs c (List.mem_cons_self _ _)]
    simp

theorem matchHere_token {pre tok : Bytes} (hp : ∀ c ∈ pre, isPlainByte c = true)
    (ht : ∀ c ∈ tok, isTokenByte c = true) (hm : matchNumber tok = some tok) :
    matchHere (pre ++ ':' :: tok) = some tok := by
  induction pre with
  | nil =>
    simp only [List.nil_append]
    unfold matchHere
    rw [matchHere_no_colon fun c hc => isTokenByte_ne_colon (ht c hc)]
    simp [isLineTerminator, hm]
  | cons p ps ih =>
    have h : isLineTerminator p = false := by
      have := hp p (List.mem_cons_self _ _)
      unfold isPlainByte at this
      simp only [Bool.and_eq_true, Bool.not_eq_true'] at this
      exact this.2
    simp only [List.cons_append]
    unfold matchHere
    rw [ih fun c hc => hp c (List.mem_cons_of_mem _ hc)]
    simp [h]

theorem regexSearch_token {pre tok : Bytes} (hp : ∀ c ∈ pre, isPlainByte c = true)
    (ht : ∀ c ∈ tok, isTokenByte c = true) (hm : matchNumber tok = some tok) :
    regexSearch (pre ++ ':' :: tok) = some tok := by
  have h := matchHere_token hp ht hm
  cases pre with
  | nil =>
    simp only [List.nil_append] at h ⊢
    unfold regexSearch
    rw [h]
  | cons p ps =>
    simp only [List.cons_append] at h ⊢
    unfold regexSearch
    rw [h]

theorem inputOf_frame {s : Bytes} (hs : ∀ c ∈ s, isPlainByte c = true) :
    inputOf (s ++ ['#']) = s := by
  unfold inputOf
  rw [List.dropLast_concat, List.takeWhile_eq_self_iff]
  intro c hc
  have := hs c hc
  unfold isPlainByte at this
  simp only [Bool.and_eq_true] at this
  exact this.1

/-- The token the pattern finds in a frame `<prefix>:<token>#`. -/
theorem regexSearch_frame {pre int tail : Bytes} (hp : ∀ c ∈ pre, isPlainByte c = true)
    (hne : int ≠ []) (hi : ∀ c ∈ int, isDigit c = true)
    (ht : ∀ c, tail.head? = some c → isDigit c = false)
    (htb : ∀ c ∈ tail, isTokenByte c = true) :
    regexSearch (inputOf (pre ++ ':' :: (int ++ tail) ++ ['#'])) = some (int ++ tail) := by
  have htok : ∀ c ∈ int ++ tail, isTokenByte c = true := by
    intro c hc
    rcases List.mem_append.1 hc with h | h
    · unfold isTokenByte; simp [hi c h]
    · exact htb c h
  rw [inputOf_frame]
  · exact regexSearch_token hp htok (matchNumber_token hne hi ht htb)
  · intro c hc
    rcases List.mem_append.1 hc with h | h
    · exact hp c h
    · rcases List.mem_cons.1 h with h | h
      · subst h; decide
      · exact isTokenByte_plain (htok c h)

/-! ## Conversion of a token -/

theorem leadingBit_spec (k n : Nat) (h1 : 1 ≤ n) (hk : n ≤ k) :
    2 ^ leadingBit k n ≤ n ∧ n < 2 ^ (leadingBit k n + 1) := by
  induction k generalizing n with
  | zero => omega
  | succ k ih =>
    unfold leadingBit
    split
    · simp only [pow_zero, zero_add, pow_one]
      omega
    · have h := ih (n / 2) (by omega) (by omega)
      rw [pow_succ, pow_succ]
      omega

theorem leadingBit_unique (n j : Nat) (h1 : 2 ^ j ≤ n) (h2 : n < 2 ^ (j + 1)) :
    leadingBit n n = j := by
  have hn : 1 ≤ n := Nat.le_trans (Nat.one_le_two_pow) h1
  obtain ⟨h3, h4⟩ := leadingBit_spec n n hn (Nat.le_refl n)
  have h5 : leadingBit n n < j + 1 :=
    (Nat.pow_lt_pow_iff_right (by decide : 1 < 2)).1 (Nat.lt_of_le_of_lt h3 h2)
  have h6 : j < leadingBit n n + 1 :=
    (Nat.pow_lt_pow_iff_right (by decide : 1 < 2)).1 (Nat.lt_of_le_of_lt h1 h4)
  omega

theorem roundHalfEven_mul (m y : Nat) (hy : 0 < y) : roundHalfEven (m * y) y = m := by
  unfold roundHalfEven
  rw [Nat.mul_mod_left, Nat.mul_div_cancel m hy]
  simp [hy]

/-- The binary exponent of a 24-bit significand times a power of two. -/
theorem binaryExponent_of_scaled (a b M k : Nat) (hb : 0 < b) (hM : 2 ^ 23 ≤ M)
    (hM' : M < 2 ^ 24) (h : a * 2 ^ 150 = M * 2 ^ k * b) :
    binaryExponent a b = (k : Int) + 23 - 150 := by
  unfold binaryExponent
  have hN : a * 2 ^ 150 / b = M * 2 ^ k := Nat.div_eq_of_eq_mul_left hb h
  rw [hN, leadingBit_unique (M * 2 ^ k) (23 + k)]
  · push_cast; ring
  · rw [pow_add]; exact Nat.mul_le_mul_right _ hM
  · rw [show 23 + k + 1 = 24 + k by omega, pow_add]
    exact Nat.mul_lt_mul_of_pos_right hM' (by positivity)

theorem toBinary32_exact_up (a b M t : Nat) (hb : 0 < b) (hM : 2 ^ 23 ≤ M) (hM' : M < 2 ^ 24)
    (ht : t ≤ 104) (h : a = M * (b * 2 ^ t)) :
    toBinary32 a b = some ((M : ℚ) * 2 ^ (t : ℤ)) := by
  have ha : a ≠ 0 := by
    rw [h]
    have : 0 < M := by omega
    positivity
  have he : binaryExponent a b = (t : Int) + 23 := by
    rw [binaryExponent_of_scaled a b M (t + 150) hb hM hM' (by rw [h, pow_add]; ring)]
    push_cast; ring
  have hs : significand a b (t : Int) = M := by
    unfold significand
    rw [if_pos (Int.natCast_nonneg t), Int.toNat_natCast, h]
    exact roundHalfEven_mul M _ (by positivity)
  unfold toBinary32
  rw [if_neg ha, he, if_neg (by omega), show (t : Int) + 23 - 23 = t by ring, hs]
  rw [if_neg]
  rw [not_le, zpow_natCast]
  have h1 : (M : ℚ) < 2 ^ 24 := by exact_mod_cast hM'
  have h2 : (2 : ℚ) ^ t ≤ 2 ^ 104 := pow_le_pow_right₀ (by norm_num) ht
  calc (M : ℚ) * 2 ^ t < 2 ^ 24 * 2 ^ t := by
        apply mul_lt_mul_of_pos_right h1 (by positivity)
    _ ≤ 2 ^ 24 * 2 ^ 104 := by apply mul_le_mul_of_nonneg_left h2 (by positivity)
    _ = 2 ^ 128 := by norm_num

theorem toBinary32_exact_down (a b M t : Nat) (hb : 0 < b) (hM : 2 ^ 23 ≤ M) (hM' : M < 2 ^ 24)
    (ht1 : 1 ≤ t) (ht : t ≤ 149) (h : a * 2 ^ t = M * b) :
    toBinary32 a b = some ((M : ℚ) * 2 ^ (-(t : ℤ))) := by
  have ha : a ≠ 0 := by
    rintro rfl
    have : 0 < M * b := by
      have : 0 < M := by omega
      positivity
    omega
  have he : binaryExponent a b = -(t : Int) + 23 := by
    rw [binaryExponent_of_scaled a b M (150 - t) hb hM hM']
    · rw [Nat.cast_sub (by omega)]; push_cast; ring
    · calc a * 2 ^ 150 = a * 2 ^ (t + (150 - t)) := by rw [Nat.add_sub_cancel' (by omega)]
        _ = (a * 2 ^ t) * 2 ^ (150 - t) := by rw [pow_add]; ring
        _ = M * 2 ^ (150 - t) * b := by rw [h]; ring
  have hs : significand a b (-(t : Int)) = M := by
    unfold significand
    rw [if_neg (by omega), neg_neg, Int.toNat_natCast, h]
    exact roundHalfEven_mul M _ hb
  unfold toBinary32
  rw [if_neg ha, he, if_neg (by omega), show -(t : Int) + 23 - 23 = -t by ring, hs]
  rw [if_neg]
  rw [not_le, zpow_neg, zpow_natCast]
  have h1 : (M : ℚ) < 2 ^ 24 := by exact_mod_cast hM'
  have h2 : ((2 : ℚ) ^ t)⁻¹ ≤ 1 := inv_le_one_of_one_le₀ (one_le_pow₀ (by norm_num))
  calc (M : ℚ) * ((2 : ℚ) ^ t)⁻¹ ≤ M * 1 := by
        apply mul_le_mul_of_nonneg_left h2 (by positivity)
    _ < 2 ^ 128 := by rw [mul_one]; exact lt_trans h1 (by norm_num)


/-- A value that is a binary32 number (a 24-bit significand times a power of two
in the normal range) is converted without change. -/
theorem toBinary32_exact (a b M : Nat) (T : Int) (hb : 0 < b) (hM : 2 ^ 23 ≤ M)
    (hM' : M < 2 ^ 24) (hT : -149 ≤ T) (hT' : T ≤ 104) (h : (a : ℚ) / b = M * 2 ^ T) :
    toBinary32 a b = some ((a : ℚ) / b) := by
  have hbq : (b : ℚ) ≠ 0 := by exact_mod_cast hb.ne'
  rw [h]
  rcases Int.lt_or_le T 0 with hneg | hpos
  · obtain ⟨t, rfl⟩ : ∃ t : Nat, T = -(t : Int) := ⟨(-T).toNat, by omega⟩
    refine toBinary32_exact_down a b M t hb hM hM' (by omega) (by omega) ?_
    rw [zpow_neg, zpow_natCast] at h
    have h2 : (2 : ℚ) ^ t ≠ 0 := by positivity
    field_simp at h
    exact_mod_cast h
  · obtain ⟨t, rfl⟩ : ∃ t : Nat, T = (t : Int) := ⟨T.toNat, by omega⟩
    refine toBinary32_exact_up a b M t hb hM hM' (by omega) ?_
    rw [zpow_natCast] at h
    field_simp at h
    have : (a : ℚ) = ((M * (b * 2 ^ t) : Nat) : ℚ) := by push_cast; rw [h]; ring
    exact_mod_cast this

theorem roundHalfEven_near (x y : Nat) (hy : 0 < y) :
    |((roundHalfEven x y : Nat) : ℚ) - (x : ℚ) / y| ≤ 1 / 2 := by
  have hyq : (0 : ℚ) < y := by exact_mod_cast hy
  have hx : (x : ℚ) = y * (x / y : Nat) + (x % y : Nat) := by
    exact_mod_cast (Nat.div_add_mod x y).symm
  have hr : x % y < y := Nat.mod_lt x hy
  have hrq : ((x % y : Nat) : ℚ) < y := by exact_mod_cast hr
  have hr0 : (0 : ℚ) ≤ ((x % y : Nat) : ℚ) := Nat.cast_nonneg _
  have hdiv : (x : ℚ) / y = (x / y : Nat) + ((x % y : Nat) : ℚ) / y := by
    rw [div_eq_iff hyq.ne', add_mul, div_mul_cancel₀ _ hyq.ne']
    linarith [hx]
  rw [hdiv]
  unfold roundHalfEven
  split
  · rename_i h
    have h' : 2 * ((x % y : Nat) : ℚ) < y := by exact_mod_cast h
    rw [abs_le]
    constructor
    · have : ((x % y : Nat) : ℚ) / y ≤ 1 / 2 := by
        rw [div_le_iff₀ hyq]; linarith
      linarith
    · have : (0 : ℚ) ≤ ((x % y : Nat) : ℚ) / y := div_nonneg hr0 hyq.le
      linarith
  · split
    · rename_i _ h
      have h' : (y : ℚ) < 2 * ((x % y : Nat) : ℚ) := by exact_mod_cast h
      push_cast
      rw [abs_le]
      constructor
      · have : ((x % y : Nat) : ℚ) / y ≤ 1 := by
          rw [div_le_iff₀ hyq]; linarith
        linarith
      · have : 1 / 2 ≤ ((x % y : Nat) : ℚ) / y := by
          rw [le_div_iff₀ hyq]; linarith
        linarith
    · rename_i h1 h2
      have h' : 2 * ((x % y : Nat) : ℚ) = y := by
        have : 2 * (x % y) = y := by omega
        exact_mod_cast this
      have hhalf : ((x % y : Nat) : ℚ) / y = 1 / 2 := by
        rw [div_eq_iff hyq.ne']; linarith
      rw [hhalf]
      have hpar : (x / y) % 2 = 0 ∨ (x / y) % 2 = 1 := Nat.mod_two_eq_zero_or_one _
      rcases hpar with hp | hp
      · rw [hp]
        push_cast
        rw [abs_le]
        constructor <;> linarith
      · rw [hp]
        push_cast
        rw [abs_le]
        constructor <;> linarith

theorem significand_near (a b : Nat) (t : Int) (hb : 0 < b) :
    |((significand a b t : Nat) : ℚ) - (a : ℚ) / b / 2 ^ t| ≤ 1 / 2 := by
  have hbq : (b : ℚ) ≠ 0 := by exact_mod_cast hb.ne'
  unfold significand
  split
  · rename_i h
    have e : (a : ℚ) / b / 2 ^ t = (a : ℚ) / ((b * 2 ^ t.toNat : Nat) : ℚ) := by
      conv_lhs => rw [← Int.toNat_of_nonneg h, zpow_natCast]
      push_cast
      rw [div_div]
    rw [e]
    exact roundHalfEven_near a _ (by positivity)
  · rename_i h
    have hneg : t = -((-t).toNat : Int) := by omega
    have e : (a : ℚ) / b / 2 ^ t = ((a * 2 ^ (-t).toNat : Nat) : ℚ) / (b : ℚ) := by
      conv_lhs => rw [hneg, zpow_neg, zpow_natCast]
      push_cast
      field_simp
    rw [e]
    exact roundHalfEven_near _ b hb

theorem binaryExponent_bounds (a b : Nat) (hb : 0 < b) (he : -126 ≤ binaryExponent a b) :
    (2 : ℚ) ^ binaryExponent a b ≤ (a : ℚ) / b ∧
    (a : ℚ) / b < (2 : ℚ) ^ (binaryExponent a b + 1) := by
  have hbq : (0 : ℚ) < b := by exact_mod_cast hb
  unfold binaryExponent at he ⊢
  generalize hN : a * 2 ^ 150 / b = N at he ⊢
  have hN1 : 1 ≤ N := by
    rcases Nat.eq_zero_or_pos N with h0 | h0
    · subst h0
      simp [leadingBit] at he
    · exact h0
  obtain ⟨h1, h2⟩ := leadingBit_spec N N hN1 (Nat.le_refl N)
  generalize leadingBit N N = j at he h1 h2
  have hlo : N * b ≤ a * 2 ^ 150 := by rw [← hN]; exact Nat.div_mul_le_self _ _
  have hhi : a * 2 ^ 150 < (N + 1) * b := by
    have := Nat.lt_mul_div_succ (a * 2 ^ 150) hb
    rw [hN] at this
    rw [Nat.mul_comm (N + 1) b]
    exact this
  have e1 : (2 : ℚ) ^ ((j : Int) - 150) = 2 ^ j / 2 ^ 150 := by
    rw [zpow_sub₀ (by norm_num), zpow_natCast]; norm_num
  have e2 : (2 : ℚ) ^ ((j : Int) - 150 + 1) = 2 ^ (j + 1) / 2 ^ 150 := by
    rw [show (j : Int) - 150 + 1 = ((j + 1 : Nat) : Int) - 150 by push_cast; ring,
      zpow_sub₀ (by norm_num), zpow_natCast]; norm_num
  rw [e1, e2]
  constructor
  · rw [div_le_div_iff₀ (by positivity) hbq]
    have : 2 ^ j * b ≤ a * 2 ^ 150 := Nat.le_trans (Nat.mul_le_mul_right b h1) hlo
    exact_mod_cast this
  · rw [div_lt_div_iff₀ hbq (by positivity)]
    have : a * 2 ^ 150 < 2 ^ (j + 1) * b :=
      Nat.lt_of_lt_of_le hhi (Nat.mul_le_mul_right b h2)
    exact_mod_cast this

/-- What the conversion returns for a positive value: a binary32 number, a
significand of at most 24 bits times a power of two not below `2 ^ (-149)`, that
lies within half a unit in the last place of the value. -/
theorem toBinary32_rounds (a b : Nat) (r : ℚ) (ha : a ≠ 0) (hb : 0 < b)
    (h : toBinary32 a b = some r) :
    ∃ (m : Nat) (t : Int), r = m * 2 ^ t ∧ 2 ^ 23 ≤ m ∧ m ≤ 2 ^ 24 ∧ -149 ≤ t ∧
      |r - (a : ℚ) / b| ≤ 2 ^ t / 2 ∧ (2 : ℚ) ^ t * 2 ^ 23 ≤ (a : ℚ) / b := by
  unfold toBinary32 at h
  rw [if_neg ha] at h
  split at h
  · cases h
  · rename_i he
    split at h
    · cases h
    · simp only [Option.some.injEq] at h
      have he' : -126 ≤ binaryExponent a b := by omega
      obtain ⟨hlo, hhi⟩ := binaryExponent_bounds a b hb he'
      generalize binaryExponent a b = e at h he' hlo hhi
      have hnear := significand_near a b (e - 23) hb
      generalize significand a b (e - 23) = m at h hnear
      have hp : (0 : ℚ) < 2 ^ (e - 23) := by positivity
      have e1 : (2 : ℚ) ^ e = 2 ^ (e - 23) * 2 ^ 23 := by
        rw [zpow_sub₀ (by norm_num)]; norm_num
      have e2 : (2 : ℚ) ^ (e + 1) = 2 ^ (e - 23) * 2 ^ 24 := by
        rw [zpow_add₀ (by norm_num), zpow_sub₀ (by norm_num)]; norm_num; ring
      have hv1 : (2 : ℚ) ^ 23 ≤ (a : ℚ) / b / 2 ^ (e - 23) := by
        rw [le_div_iff₀ hp, mul_comm, ← e1]; exact hlo
      have hv2 : (a : ℚ) / b / 2 ^ (e - 23) < 2 ^ 24 := by
        rw [div_lt_iff₀ hp, mul_comm, ← e2]; exact hhi
      rw [abs_le] at hnear
      have hm1 : (2 : ℚ) ^ 23 - 1 < m := by linarith [hnear.1]
      have hm2 : (m : ℚ) < 2 ^ 24 + 1 := by linarith [hnear.2]
      have hm1' : 2 ^ 23 ≤ m := by
        have : ((2 ^ 23 - 1 : Nat) : ℚ) < m := by push_cast; linarith
        have := Nat.cast_lt.1 this
        omega
      have hm2' : m ≤ 2 ^ 24 := by
        have : (m : ℚ) < ((2 ^ 24 + 1 : Nat) : ℚ) := by push_cast; linarith
        have := Nat.cast_lt.1 this
        omega
      refine ⟨m, e - 23, h.symm, hm1', hm2', by omega, ?_, by rw [← e1]; exact hlo⟩
      rw [← h]
      have : (m : ℚ) * 2 ^ (e - 23) - (a : ℚ) / b
          = 2 ^ (e - 23) * ((m : ℚ) - (a : ℚ) / b / 2 ^ (e - 23)) := by
        field_simp
        ring
      rw [this, abs_mul, abs_of_pos hp]
      have : |(m : ℚ) - (a : ℚ) / b / 2 ^ (e - 23)| ≤ 1 / 2 := abs_le.2 hnear
      calc (2 : ℚ) ^ (e - 23) * |(m : ℚ) - (a : ℚ) / b / 2 ^ (e - 23)|
          ≤ 2 ^ (e - 23) * (1 / 2) := mul_le_mul_of_nonneg_left this hp.le
        _ = 2 ^ (e - 23) / 2 := by ring

theorem stof_int {int : Bytes} (hne : int ≠ []) (hi : ∀ c ∈ int, isDigit c = true) :
    stof int = toBinary32 (decimalNat int) 1 := by
  have h1 : digitRun int = int := by
    have := @digitRun_append int [] hi (by simp)
    rwa [List.append_nil] at this
  have h2 : afterDigits int = [] := by
    have := @afterDigits_append int [] hi (by simp)
    rwa [List.append_nil] at this
  unfold stof
  simp only [h1, h2, List.append_nil, List.length_nil, pow_zero]
  cases int with
  | nil => exact absurd rfl hne
  | cons d ds => rfl

theorem stof_point {int frac rest : Bytes} (hne : int ≠ []) (hi : ∀ c ∈ int, isDigit c = true)
    (hf : ∀ c ∈ frac, isDigit c = true) (hr : ∀ c, rest.head? = some c → isDigit c = false) :
    stof (int ++ '.' :: (frac ++ rest))
      = toBinary32 (decimalNat (int ++ frac)) (10 ^ frac.length) := by
  have hdot : ∀ c, ('.' :: (frac ++ rest)).head? = some c → isDigit c = false := by
    intro c hc
    simp only [List.head?_cons, Option.some.injEq] at hc
    subst hc
    decide
  have h1 : digitRun (int ++ '.' :: (frac ++ rest)) = int := digitRun_append hi hdot
  have h2 : afterDigits (int ++ '.' :: (frac ++ rest)) = '.' :: (frac ++ rest) :=
    afterDigits_append hi hdot
  have h3 : digitRun (frac ++ rest) = frac := digitRun_append hf hr
  unfold stof
  simp only [h1, h2, h3]
  cases int with
  | nil => exact absurd rfl hne
  | cons d ds => rfl

/-- The call on a frame `<prefix>:<token>#` read in its first iteration: it ends
there, with what `std::stof` makes of the token. -/
theorem sendCommand_token_frame {σ : Type} (P : Port σ) (cmd : Bytes) (res : ℚ) (l : Line σ)
    (pre int tail : Bytes) (hp : ∀ c ∈ pre, isPlainByte c = true) (hne : int ≠ [])
    (hi : ∀ c ∈ int, isDigit c = true) (ht : ∀ c, tail.head? = some c → isDigit c = false)
    (htb : ∀ c ∈ tail, isTokenByte c = true)
    (hw : (P.tty_write_string l.dev cmd).1 = true)
    (hf : frameRead P cmd l = some (pre ++ ':' :: (int ++ tail) ++ ['#'])) :
    sendCommand P cmd res l =
      match stof (int ++ tail) with
      | some v => ⟨true, v, afterRead P cmd l⟩
      | none => ⟨false, res, afterRead P cmd l⟩ := by
  have hm := regexSearch_frame hp hne hi ht htb
  cases hv : stof (int ++ tail) with
  | none => exact loop_throw P cmd 2 res l _ _ hw hf hm hv
  | some v => exact loop_value P cmd 2 res l _ _ v hw hf hm hv

theorem tokenOf_eq (int frac : Bytes) :
    ∃ tail, tokenOf int frac = int ++ tail ∧
      (∀ c, tail.head? = some c → isDigit c = false) ∧
      ((∀ c ∈ frac, isDigit c = true) → ∀ c ∈ tail, isTokenByte c = true) ∧
      (int ≠ [] → (∀ c ∈ int, isDigit c = true) → (∀ c ∈ frac, isDigit c = true) →
        stof (int ++ tail) = toBinary32 (decimalNat (int ++ frac)) (10 ^ frac.length)) := by
  cases frac with
  | nil =>
    refine ⟨[], by simp [tokenOf], by simp, by simp, fun hne hi _ => ?_⟩
    simpa using stof_int hne hi
  | cons f fs =>
    refine ⟨'.' :: f :: fs, rfl, ?_, ?_, fun hne hi hf => ?_⟩
    · intro c hc
      simp only [List.head?_cons, Option.some.injEq] at hc
      subst hc
      decide
    · intro hf c hc
      rcases List.mem_cons.1 hc with h | h
      · subst h; decide
      · unfold isTokenByte; simp [hf c h]
    · have := @stof_point int (f :: fs) [] hne hi hf (by simp)
      simpa using this

theorem decimalValue_eq (int frac : Bytes) :
    decimalValue int frac
      = ((decimalNat (int ++ frac) : Nat) : ℚ) / ((10 ^ frac.length : Nat) : ℚ) := by
  unfold decimalValue
  push_cast
  rfl

/-- The outcome of a conversion in terms of the value converted: exact on the
binary32 numbers and on zero, within relative error `2 ^ (-24)` on success. -/
theorem toBinary32_decimal (int frac : Bytes) :
    (IsBinary32 (decimalValue int frac) →
      toBinary32 (decimalNat (int ++ frac)) (10 ^ frac.length) = some (decimalValue int frac)) ∧
    (decimalValue int frac = 0 →
      toBinary32 (decimalNat (int ++ frac)) (10 ^ frac.length) = some 0) ∧
    (∀ r, toBinary32 (decimalNat (int ++ frac)) (10 ^ frac.length) = some r →
      |r - decimalValue int frac| ≤ decimalValue int frac / 2 ^ 24) := by
  have hb : 0 < 10 ^ frac.length := by positivity
  refine ⟨?_, ?_, ?_⟩
  · rintro ⟨m, t, h1, h2, h3, h4, h5⟩
    rw [decimalValue_eq] at h5 ⊢
    exact toBinary32_exact _ _ m t hb h1 h2 h3 h4 h5
  · intro h0
    rw [decimalValue_eq, div_eq_zero_iff] at h0
    have : decimalNat (int ++ frac) = 0 := by
      rcases h0 with h | h
      · exact_mod_cast h
      · have : (10 ^ frac.length : Nat) = 0 := by exact_mod_cast h
        omega
    rw [this]
    rfl
  · intro r hr
    rw [decimalValue_eq]
    rcases Nat.eq_zero_or_pos (decimalNat (int ++ frac)) with h0 | h0
    · rw [h0] at hr ⊢
      have : r = 0 := by
        have : toBinary32 0 (10 ^ frac.length) = some 0 := rfl
        rw [this] at hr
        exact (Option.some.inj hr).symm
      simp [this]
    · obtain ⟨m, t, -, -, -, -, h5, h6⟩ := toBinary32_rounds _ _ r h0.ne' hb hr
      refine le_trans h5 ?_
      have hp : (0 : ℚ) < 2 ^ t := by positivity
      rw [div_le_div_iff₀ (by norm_num) (by norm_num)]
      calc (2 : ℚ) ^ t * 2 ^ 24 = 2 ^ t * 2 ^ 23 * 2 := by ring
        _ ≤ _ := mul_le_mul_of_nonneg_right h6 (by norm_num)

/-! ## The value a call returns -/

/-- C8 as stated fails: the frame `OK:16777217#` has the form `<prefix>:<int>#`,
the call succeeds, but `res` is 16777216 and not the decimal value 16777217 of the
token, which has no `float` representation.  And when the prefix holds a line
feed the token taken need not be the one after the last colon: the frame
`a:1`, line feed, `b:2#` gives 1. -/
theorem sendCommand_inexact_counterexample :
    (sendCommand scriptedPort "!dome getaz#".toList 0
      (freshLine [true] [some "OK:16777217#".toList])).ok = true ∧
    (sendCommand scriptedPort "!dome getaz#".toList 0
      (freshLine [true] [some "OK:16777217#".toList])).res = 16777216 ∧
    (sendCommand scriptedPort "!dome getaz#".toList 0
      (freshLine [true] [some "OK:16777217#".toList])).res ≠ decimalValue "16777217".toList [] ∧
    (sendCommand scriptedPort "!dome getaz#".toList 0
      (freshLine [true] [some "a:1\nb:2#".toList])).res = 1 := by
  decide!

/-- C8, amended: for a frame `<prefix>:<int>#` or `<prefix>:<int>.<frac>#` whose
prefix has no NUL, CR or LF byte, a call whose first write and read succeed ends
with that exchange and hands the token after the last colon to `std::stof`, which
converts to `float`.  The call returns success with `res` exactly the decimal
value of the token when that value is zero or a binary32 number; whenever it
returns success `res` is within relative error `2 ^ (-24)` of the decimal value;
and it returns failure, with `res` untouched, only when the conversion reports a
range error. -/
theorem sendCommand_numeric_frame {σ : Type} (P : Port σ) (cmd : Bytes) (res : ℚ) (l : Line σ)
    (pre int frac : Bytes) (hp : ∀ c ∈ pre, isPlainByte c = true) (hne : int ≠ [])
    (hi : ∀ c ∈ int, isDigit c = true) (hfr : ∀ c ∈ frac, isDigit c = true)
    (hw : (P.tty_write_string l.dev cmd).1 = true)
    (hf : (P.tty_nread_section (P.tty_write_string l.dev cmd).2).1
      = some (pre ++ ':' :: tokenOf int frac ++ ['#'])) :
    (sendCommand P cmd res l).line = afterRead P cmd l ∧
    (IsBinary32 (decimalValue int frac) ∨ decimalValue int frac = 0 →
      (sendCommand P cmd res l).ok = true ∧
      (sendCommand P cmd res l).res = decimalValue int frac) ∧
    ((sendCommand P cmd res l).ok = true →
      |(sendCommand P cmd res l).res - decimalValue int frac| ≤ decimalValue int frac / 2 ^ 24) ∧
    ((sendCommand P cmd res l).ok = false →
      (sendCommand P cmd res l).res = res ∧
      toBinary32 (decimalNat (int ++ frac)) (10 ^ frac.length) = none) := by
  obtain ⟨tail, h1, h2, h3, h4⟩ := tokenOf_eq int frac
  rw [h1] at hf
  have hs := sendCommand_token_frame P cmd res l pre int tail hp hne hi h2 (h3 hfr) hw hf
  rw [h4 hne hi hfr] at hs
  obtain ⟨e1, e2, e3⟩ := toBinary32_decimal int frac
  cases hv : toBinary32 (decimalNat (int ++ frac)) (10 ^ frac.length) with
  | none =>
    rw [hv] at hs
    have hs' : sendCommand P cmd res l = ⟨false, res, afterRead P cmd l⟩ := hs
    rw [hs']
    refine ⟨rfl, fun h => ?_, fun h => ?_, fun _ => ⟨rfl, rfl⟩⟩
    · rcases h with h | h
      · rw [e1 h] at hv; cases hv
      · rw [e2 h] at hv; cases hv
    · cases h
  | some v =>
    rw [hv] at hs
    have hs' : sendCommand P cmd res l = ⟨true, v, afterRead P cmd l⟩ := hs
    rw [hs']
    refine ⟨rfl, fun h => ⟨rfl, ?_⟩, fun _ => e3 v hv, fun h => ?_⟩
    · rcases h with h | h
      · rw [e1 h] at hv; exact (Option.some.inj hv).symm
      · rw [e2 h] at hv; rw [h]; exact (Option.some.inj hv).symm
    · cases h

/-- C8 amended, at the two frames of the claim: `OK:123#` gives 123 and
`OK:12.50#` gives 12.5, both binary32 numbers. -/
theorem sendCommand_numeric_frame_witness :
    ((sendCommand scriptedPort "!dome getaz#".toList 0
        (freshLine [true] [some "OK:123#".toList])).ok = true ∧
      (sendCommand scriptedPort "!dome getaz#".toList 0
        (freshLine [true] [some "OK:123#".toList])).res = 123) ∧
    ((sendCommand scriptedPort "!dome getaz#".toList 0
        (freshLine [true] [some "OK:12.50#".toList])).ok = true ∧
      (sendCommand scriptedPort "!dome getaz#".toList 0
        (freshLine [true] [some "OK:12.50#".toList])).res = 25 / 2) := by
  have h1 := (sendCommand_numeric_frame scriptedPort "!dome getaz#".toList 0
    (freshLine [true] [some "OK:123#".toList]) "OK".toList "123".toList [] (by decide)
    (by decide) (by decide) (by decide) rfl rfl).2.1
    (Or.inl ⟨16121856, -17, by decide, by decide, by decide, by decide, by decide!⟩)
  have h2 := (sendCommand_numeric_frame scriptedPort "!dome getaz#".toList 0
    (freshLine [true] [some "OK:12.50#".toList]) "OK".toList "12".toList "50".toList (by decide)
    (by decide) (by decide) (by decide) rfl rfl).2.1
    (Or.inl ⟨13107200, -20, by decide, by decide, by decide, by decide, by decide!⟩)
  exact ⟨⟨h1.1, h1.2.trans (by decide!)⟩, ⟨h2.1, h2.2.trans (by decide!)⟩⟩

/-- C10 as stated fails: for the frame `OK:1.2.3#` the call returns success, with
the `float` nearest to 1.2 in `res`. -/
theorem sendCommand_two_points_counterexample :
    regexSearch (inputOf "OK:1.2.3#".toList) = some "1.2.3".toList ∧
    (sendCommand scriptedPort "!dome getaz#".toList 0
      (freshLine [true] [some "OK:1.2.3#".toList])).ok = true ∧
    (sendCommand scriptedPort "!dome getaz#".toList 0
      (freshLine [true] [some "OK:1.2.3#".toList])).res = 5033165 / 4194304 := by
  decide!

/-- C10, amended: for a frame whose token after the last colon is
`<int>.<frac>.<rest>`, digits with more than one decimal point (`frac` may be
empty, `rest` is any run of digits and points), the pattern matches the whole
token and `std::stof` converts its leading `<int>.<frac>`, ignoring the second
point and what follows: the call behaves as on the frame `<prefix>:<int>.<frac>#`.
It returns success with `res` exactly the value of `<int>.<frac>` when that is
zero or a binary32 number, success within relative error `2 ^ (-24)` otherwise,
and failure only on a range error of the conversion. -/
theorem sendCommand_two_points {σ : Type} (P : Port σ) (cmd : Bytes) (res : ℚ) (l : Line σ)
    (pre int frac rest : Bytes) (hp : ∀ c ∈ pre, isPlainByte c = true) (hne : int ≠ [])
    (hi : ∀ c ∈ int, isDigit c = true) (hfr : ∀ c ∈ frac, isDigit c = true)
    (hre : ∀ c ∈ rest, isTokenByte c = true)
    (hw : (P.tty_write_string l.dev cmd).1 = true)
    (hf : (P.tty_nread_section (P.tty_write_string l.dev cmd).2).1
      = some (pre ++ ':' :: (int ++ '.' :: (frac ++ '.' :: rest)) ++ ['#'])) :
    regexSearch (inputOf (pre ++ ':' :: (int ++ '.' :: (frac ++ '.' :: rest)) ++ ['#']))
      = some (int ++ '.' :: (frac ++ '.' :: rest)) ∧
    (sendCommand P cmd res l =
      match toBinary32 (decimalNat (int ++ frac)) (10 ^ frac.length) with
      | some v => ⟨true, v, afterRead P cmd l⟩
      | none => ⟨false, res, afterRead P cmd l⟩) ∧
    (IsBinary32 (decimalValue int frac) ∨ decimalValue int frac = 0 →
      (sendCommand P cmd res l).ok = true ∧
      (sendCommand P cmd res l).res = decimalValue int frac) ∧
    ((sendCommand P cmd res l).ok = true →
      |(sendCommand P cmd res l).res - decimalValue int frac|
        ≤ decimalValue int frac / 2 ^ 24) := by
  have h2 : ∀ c, ('.' :: (frac ++ '.' :: rest)).head? = some c → isDigit c = false := by
    intro c hc
    simp only [List.head?_cons, Option.some.injEq] at hc
    subst hc
    decide
  have h3 : ∀ c ∈ '.' :: (frac ++ '.' :: rest), isTokenByte c = true := by
    intro c hc
    rcases List.mem_cons.1 hc with h | h
    · subst h; decide
    · rcases List.mem_append.1 h with h | h
      · unfold isTokenByte; simp [hfr c h]
      · rcases List.mem_cons.1 h with h | h
        · subst h; decide
        · exact hre c h
  have hs := sendCommand_token_frame P cmd res l pre int _ hp hne hi h2 h3 hw hf
  have h4 : stof (int ++ '.' :: (frac ++ '.' :: rest))
      = toBinary32 (decimalNat (int ++ frac)) (10 ^ frac.length) :=
    stof_point hne hi hfr (by
      intro c hc
      simp only [List.head?_cons, Option.some.injEq] at hc
      subst hc
      decide)
  rw [h4] at hs
  obtain ⟨e1, e2, e3⟩ := toBinary32_decimal int frac
  refine ⟨regexSearch_frame hp hne hi h2 h3, hs, ?_, ?_⟩
  · intro h
    have hv : toBinary32 (decimalNat (int ++ frac)) (10 ^ frac.length)
        = some (decimalValue int frac) := by
      rcases h with h | h
      · exact e1 h
      · rw [e2 h, h]
    rw [hs, hv]
    exact ⟨rfl, rfl⟩
  · intro hok
    cases hv : toBinary32 (decimalNat (int ++ frac)) (10 ^ frac.length) with
    | none => rw [hs, hv] at hok; cases hok
    | some v => rw [hs, hv]; exact e3 v hv

/-- C10 amended, at a concrete input: the frame `OK:1.5.3#` gives success with
the value 1.5 of the leading `1.5`. -/
theorem sendCommand_two_points_witness :
    (sendCommand scriptedPort "!dome getaz#".toList 0
      (freshLine [true] [some "OK:1.5.3#".toList])).ok = true ∧
    (sendCommand scriptedPort "!dome getaz#".toList 0
      (freshLine [true] [some "OK:1.5.3#".toList])).res = 3 / 2 := by
  have h := (sendCommand_two_points scriptedPort "!dome getaz#".toList 0
    (freshLine [true] [some "OK:1.5.3#".toList]) "OK".toList "1".toList "5".toList "3".toList
    (by decide) (by decide) (by decide) (by decide) (by decide) rfl rfl).2.2.1
    (Or.inl ⟨12582912, -23, by decide, by decide, by decide, by decide, by decide!⟩)
  exact ⟨h.1, h.2.trans (by decide!)⟩

/-! ## The shutter after a tick -/

theorem ite_shutterStatus (c : Prop) [Decidable c] (a b : Dome) :
    (if c then a else b).shutterStatus = if c then a.shutterStatus else b.shutterStatus := by
  split <;> rfl

theorem setShutterText_shutterStatus (d : Dome) (t : String) :
    (setShutterText d t).shutterStatus = t := rfl

theorem setShutterState_shutterStatus (d : Dome) (v : ShutterState) :
    (setShutterState d v).shutterStatus = d.shutterStatus := rfl

theorem setRotatorText_shutterStatus (d : Dome) (t : String) :
    (setRotatorText d t).shutterStatus = d.shutterStatus := rfl

theorem setDomeState_shutterStatus (d : Dome) (v : DomeState) :
    (setDomeState d v).shutterStatus = d.shutterStatus := rfl

theorem rotatorGetAz_shutterStatus {σ : Type} (P : Port σ) (d : Dome) (l : Line σ) :
    (rotatorGetAz P d l).dome.shutterStatus = d.shutterStatus := by
  unfold rotatorGetAz
  simp only
  split <;> rfl

theorem updateVoltage_shutterStatus {σ : Type} (P : Port σ) (res : ℚ) (d : Dome) (l : Line σ) :
    (updateVoltage P res d l).1.shutterStatus = d.shutterStatus := by
  unfold updateVoltage shutterIsUp
  simp only
  repeat' split
  all_goals rfl

theorem checkUnsafe_shutterStatus (H : Header) (w : Nat) (d : Dome) :
    (checkUnsafe H w d).shutterStatus = d.shutterStatus := by
  unfold checkUnsafe
  simp only [ite_shutterStatus, setDomeState_shutterStatus, ite_self]

theorem checkRotator_shutterStatus (H : Header) (w : Nat) (d : Dome) :
    (checkRotator H w d).shutterStatus = d.shutterStatus := by
  unfold checkRotator
  simp only [ite_shutterStatus, setDomeState_shutterStatus, setRotatorText_shutterStatus,
    ite_self]

theorem checkParking_shutterStatus (d : Dome) :
    (checkParking d).shutterStatus = d.shutterStatus := by
  unfold checkParking
  simp only [ite_shutterStatus, setDomeState_shutterStatus, setRotatorText_shutterStatus,
    ite_self]

/-- The text the shutter block leaves, as a function of the shutter state, the
status word and the text before. -/
theorem checkShutter_shutterStatus (H : Header) (w : Nat) (d : Dome) :
    (checkShutter H w d).shutterStatus =
      if d.shutterState = SHUTTER_MOVING then lastSetLabel (shutterTests H) w d.shutterStatus
      else d.shutterStatus := by
  unfold checkShutter
  simp only [ite_shutterStatus, setShutterState_shutterStatus, setShutterText_shutterStatus,
    lastSetLabel, shutterTests, List.foldl_cons, List.foldl_nil]

/-- The shutter text a tick leaves is the one the shutter block computes. -/
theorem TimerHit_shutterStatus {σ : Type} (H : Header) (P : Port σ) (d : Dome) (l : Line σ)
    (hc : d.connected = true) :
    (TimerHit H P d l).1.shutterStatus =
      if d.shutterState = SHUTTER_MOVING then
        lastSetLabel (shutterTests H) (statusWord P l) d.shutterStatus
      else d.shutterStatus := by
  unfold TimerHit statusWord
  simp only [hc, Bool.true_eq_false, if_false]
  rw [updateVoltage_shutterStatus, checkShutter_shutterStatus, checkParking_shutterState,
    checkRotator_shutterState, rotatorGetAz_shutterState, checkUnsafe_shutterState,
    checkParking_shutterStatus, checkRotator_shutterStatus, rotatorGetAz_shutterStatus,
    checkUnsafe_shutterStatus]

/-- C12 as stated fails: the checked order of the claim leaves out the closed
bit.  With the shutter Moving and the status word 0x0102 (shutter moving and
shutter closed) the last set bit of the claimed order is the moving bit, whose
text is "Open", but the tick leaves the text "Closed". -/
theorem shutter_label_closed_counterexample :
    statusWord scriptedPort (freshLine [true] [some "OK:258#".toList]) = 0x0102 ∧
    (domeIn DOME_IDLE SHUTTER_MOVING).shutterState = SHUTTER_MOVING ∧
    lastSetLabel (shutterTestsAsSpecified beaverHeader) 0x0102
      (domeIn DOME_IDLE SHUTTER_MOVING).shutterStatus = "Open" ∧
    (TimerHit beaverHeader scriptedPort (domeIn DOME_IDLE SHUTTER_MOVING)
      (freshLine [true] [some "OK:258#".toList])).1.shutterStatus = "Closed" := by
  decide!

/-- C12, amended: with the shutter Moving before the tick, the shutter text
after the tick is the text of the last set bit in the order of the code, which
is moving, closed, open, opening, closing, mechanical-error,
communication-error, and the text before when none of these bits is set; in
particular the closing bit without an error bit gives "Closing", whatever the
moving bit is. -/
theorem shutter_label_last_match {σ : Type} (H : Header) (P : Port σ) (d : Dome) (l : Line σ)
    (hc : d.connected = true) (hm : d.shutterState = SHUTTER_MOVING) :
    (TimerHit H P d l).1.shutterStatus
      = lastSetLabel (shutterTests H) (statusWord P l) d.shutterStatus ∧
    (bitSet (statusWord P l) H.DOME_STATUS_SHUTTER_CLOSING = true →
      bitSet (statusWord P l) H.DOME_STATUS_SHUTTER_ERROR = false →
      bitSet (statusWord P l) H.DOME_STATUS_SHUTTER_COMM = false →
      (TimerHit H P d l).1.shutterStatus = "Closing") := by
  rw [TimerHit_shutterStatus H P d l hc, if_pos hm]
  refine ⟨rfl, fun h1 h2 h3 => ?_⟩
  simp [lastSetLabel, shutterTests, h1, h2, h3]

/-- C12 amended, at the input of the claim: shutter moving and shutter closing
both set (status word 0x0402) give the text "Closing". -/
theorem shutter_label_last_match_witness :
    statusWord scriptedPort (freshLine [true] [some "OK:1026#".toList]) = 0x0402 ∧
    (TimerHit beaverHeader scriptedPort (domeIn DOME_IDLE SHUTTER_MOVING)
      (freshLine [true] [some "OK:1026#".toList])).1.shutterStatus = "Closing" :=
  ⟨by decide!, (shutter_label_last_match beaverHeader scriptedPort
    (domeIn DOME_IDLE SHUTTER_MOVING) (freshLine [true] [some "OK:1026#".toList]) rfl rfl).2
    (by decide!) (by decide!) (by decide!)⟩

/-- C13 as stated fails: with the shutter Moving, the communication-error bit
alone (status word 0x0010) and the mechanical-error bit alone (0x0008) leave the
same shutter state, `SHUTTER_ERROR`; there is no state of its own for a
communication error. -/
theorem shutter_comm_error_counterexample :
    (TimerHit beaverHeader scriptedPort (domeIn DOME_IDLE SHUTTER_MOVING)
      (freshLine [true] [some "OK:16#".toList])).1.shutterState = SHUTTER_ERROR ∧
    (TimerHit beaverHeader scriptedPort (domeIn DOME_IDLE SHUTTER_MOVING)
      (freshLine [true] [some "OK:8#".toList])).1.shutterState = SHUTTER_ERROR ∧
    (TimerHit beaverHeader scriptedPort (domeIn DOME_IDLE SHUTTER_MOVING)
      (freshLine [true] [some "OK:16#".toList])).1.shutterState
      = (TimerHit beaverHeader scriptedPort (domeIn DOME_IDLE SHUTTER_MOVING)
        (freshLine [true] [some "OK:8#".toList])).1.shutterState := by
  decide!

/-- C13, amended: with the shutter Moving before the tick, a set
mechanical-error bit and a set communication-error bit both leave the shutter in
the one state `SHUTTER_ERROR`, regardless of the other shutter bits; the two
cases differ in the text only, "Communications Error" when the
communication-error bit is set and "Mechanical Error" when only the
mechanical-error bit is. -/
theorem shutter_error_bits {σ : Type} (H : Header) (P : Port σ) (d : Dome) (l : Line σ)
    (hc : d.connected = true) (hm : d.shutterState = SHUTTER_MOVING) :
    (bitSet (statusWord P l) H.DOME_STATUS_SHUTTER_COMM = true →
      (TimerHit H P d l).1.shutterState = SHUTTER_ERROR ∧
      (TimerHit H P d l).1.shutterStatus = "Communications Error") ∧
    (bitSet (statusWord P l) H.DOME_STATUS_SHUTTER_ERROR = true →
      bitSet (statusWord P l) H.DOME_STATUS_SHUTTER_COMM = false →
      (TimerHit H P d l).1.shutterState = SHUTTER_ERROR ∧
      (TimerHit H P d l).1.shutterStatus = "Mechanical Error") := by
  rw [TimerHit_shutterStatus H P d l hc, TimerHit_shutterState H P d l hc,
    checkShutter_shutterState, if_pos hm, if_pos hm]
  refine ⟨fun h => ?_, fun h1 h2 => ?_⟩
  · simp [lastSetLabel, shutterTests, h]
  · simp [lastSetLabel, shutterTests, h1, h2]

/-- C13 amended, at a concrete input: the mechanical-error bit together with the
opening bit (status word 0x0208) leaves the shutter in `SHUTTER_ERROR` with the
text "Mechanical Error". -/
theorem shutter_error_bits_witness :
    (TimerHit beaverHeader scriptedPort (domeIn DOME_IDLE SHUTTER_MOVING)
      (freshLine [true] [some "OK:520#".toList])).1.shutterState = SHUTTER_ERROR ∧
    (TimerHit beaverHeader scriptedPort (domeIn DOME_IDLE SHUTTER_MOVING)
      (freshLine [true] [some "OK:520#".toList])).1.shutterStatus = "Mechanical Error" :=
  (shutter_error_bits beaverHeader scriptedPort (domeIn DOME_IDLE SHUTTER_MOVING)
    (freshLine [true] [some "OK:520#".toList]) rfl rfl).2 (by decide!) (by decide!)

/-- C16: a rotator that is Parking before the tick is Parked after it (with the
text "Parked") whenever neither unsafe bit is set, whatever the rotator bits of
the status word are, none of them included. -/
theorem timerHit_parking_resolves {σ : Type} (H : Header) (P : Port σ) (d : Dome) (l : Line σ)
    (hc : d.connected = true) (hp : d.domeState = DOME_PARKING)
    (hcw : bitSet (statusWord P l) H.DOME_STATUS_UNSAFE_CW = false)
    (hrg : bitSet (statusWord P l) H.DOME_STATUS_UNSAFE_RG = false) :
    (TimerHit H P d l).1.domeState = DOME_PARKED ∧
    (TimerHit H P d l).1.rotatorStatus = "Parked" := by
  have h1 : (rotatorGetAz P (checkUnsafe H (statusWord P l) d)
      (sendCommand P "!dome status#".toList 0 l).line).dome.domeState = DOME_PARKING := by
    rw [rotatorGetAz_domeState, checkUnsafe_domeState]
    simp [hcw, hrg, hp]
  have h2 : (checkRotator H (statusWord P l) (rotatorGetAz P (checkUnsafe H (statusWord P l) d)
      (sendCommand P "!dome status#".toList 0 l).line).dome).domeState = DOME_PARKING := by
    rw [checkRotator_domeState, h1]
    simp
  rw [TimerHit_domeState H P d l hc, TimerHit_rotatorStatus H P d l hc, checkParking_domeState,
    checkParking_rotatorStatus, h2]
  simp

/-- C16, at a concrete input: the status word 0 (no confirmation bit at all)
read while the rotator is Parking leaves it Parked. -/
theorem timerHit_parking_resolves_witness :
    statusWord scriptedPort (freshLine [true] [some "OK:0#".toList]) = 0 ∧
    (TimerHit beaverHeader scriptedPort (domeIn DOME_PARKING SHUTTER_UNKNOWN)
      (freshLine [true] [some "OK:0#".toList])).1.domeState = DOME_PARKED :=
  ⟨by decide!, (timerHit_parking_resolves beaverHeader scriptedPort
    (domeIn DOME_PARKING SHUTTER_UNKNOWN) (freshLine [true] [some "OK:0#".toList]) rfl rfl
    (by decide!) (by decide!)).1⟩

/-- C20: when the shutter is not Moving before the tick, the tick leaves the
shutter state and the shutter text as they were, for every line behaviour and so
for every status word, the error bits included. -/
theorem timerHit_shutter_untouched {σ : Type} (H : Header) (P : Port σ) (d : Dome) (l : Line σ)
    (hm : d.shutterState ≠ SHUTTER_MOVING) :
    (TimerHit H P d l).1.shutterState = d.shutterState ∧
    (TimerHit H P d l).1.shutterStatus = d.shutterStatus := by
  cases hc : d.connected with
  | false => simp [TimerHit, hc]
  | true =>
    rw [TimerHit_shutterState H P d l hc, TimerHit_shutterStatus H P d l hc,
      checkShutter_shutterState, if_neg hm, if_neg hm]
    exact ⟨rfl, rfl⟩

/-- C20, at a concrete input: the shutter is Open, the status word 0x0018 has
both shutter error bits set; state and text stay as they were. -/
theorem timerHit_shutter_untouched_witness :
    statusWord scriptedPort (freshLine [true] [some "OK:24#".toList]) = 0x0018 ∧
    (TimerHit beaverHeader scriptedPort (domeIn DOME_IDLE SHUTTER_OPENED)
      (freshLine [true] [some "OK:24#".toList])).1.shutterState = SHUTTER_OPENED ∧
    (TimerHit beaverHeader scriptedPort (domeIn DOME_IDLE SHUTTER_OPENED)
      (freshLine [true] [some "OK:24#".toList])).1.shutterStatus = "Idle" :=
  ⟨by decide!, timerHit_shutter_untouched beaverHeader scriptedPort
    (domeIn DOME_IDLE SHUTTER_OPENED) (freshLine [true] [some "OK:24#".toList]) (by decide)⟩

/-! ## Motion commands -/

theorem wrap360_of_range (s : ℚ) (k : Int) (h1 : 360 * (k : ℚ) ≤ s) (h2 : s < 360 * (k : ℚ) + 360) :
    wrap360 s = s - 360 * (k : ℚ) := by
  unfold wrap360
  have : Rat.floor (s / 360) = k := by
    show ⌊s / 360⌋ = k
    rw [Int.floor_eq_iff]
    constructor
    · rw [le_div_iff₀ (by norm_num)]; linarith
    · rw [div_lt_iff₀ (by norm_num)]; linarith
  rw [this]

/-- The target `MoveRel` computes, for bounds 0 and 360 and a sum between -360
and 720 other than 360: the sum wrapped into the range from 0 to 360. -/
theorem moveRel_target (s : ℚ) (h1 : -360 ≤ s) (h2 : s < 720) (h3 : s ≠ 360) :
    (if (if s < 0 then s + 360 else s) > 360 then (if s < 0 then s + 360 else s) - 360
      else (if s < 0 then s + 360 else s)) = wrap360 s := by
  by_cases hneg : s < 0
  · rw [if_pos hneg, if_neg (by linarith), wrap360_of_range s (-1) (by push_cast; linarith)
      (by push_cast; linarith)]
    push_cast; ring
  · rw [if_neg hneg]
    by_cases hbig : s > 360
    · rw [if_pos hbig, wrap360_of_range s 1 (by push_cast; linarith) (by push_cast; linarith)]
      push_cast; ring
    · rw [if_neg hbig]
      have : s < 360 := lt_of_le_of_ne (not_lt.1 hbig) h3
      rw [wrap360_of_range s 0 (by push_cast; linarith) (by push_cast; linarith)]
      push_cast; ring

theorem wrap360_range (s : ℚ) : 0 ≤ wrap360 s ∧ wrap360 s < 360 := by
  unfold wrap360
  show 0 ≤ s - 360 * ((⌊s / 360⌋ : Int) : ℚ) ∧ s - 360 * ((⌊s / 360⌋ : Int) : ℚ) < 360
  have h1 := Int.floor_le (s / 360)
  have h2 := Int.lt_floor_add_one (s / 360)
  rw [le_div_iff₀ (by norm_num)] at h1
  rw [div_lt_iff₀ (by norm_num)] at h2
  constructor <;> linarith

theorem moveRel_350_10 :
    MoveRel beaverHeader scriptedPort 10 (domeAt 350) (freshLine [true] [some "OK:1#".toList])
      = MoveAbs beaverHeader scriptedPort 360 { domeAt 350 with targetRotatorAz := 360 }
        (freshLine [true] [some "OK:1#".toList]) := by
  unfold MoveRel
  norm_num [domeAt]

theorem moveRel_350_400 :
    MoveRel beaverHeader scriptedPort 400 (domeAt 350) (freshLine [true] [some "OK:1#".toList])
      = MoveAbs beaverHeader scriptedPort 390 { domeAt 350 with targetRotatorAz := 390 }
        (freshLine [true] [some "OK:1#".toList]) := by
  unfold MoveRel
  norm_num [domeAt]

/-- C11 as stated fails: from the azimuth 350 the offset +10 gives the target
360, which is not below 360 (wrapped it is 0), and the offset +400 gives the
target 390; these are the azimuths sent in the `gotoaz` command. -/
theorem moveRel_not_wrapped_counterexample :
    (MoveRel beaverHeader scriptedPort 10 (domeAt 350)
      (freshLine [true] [some "OK:1#".toList])).dome.targetRotatorAz = 360 ∧
    cmdsWritten (MoveRel beaverHeader scriptedPort 10 (domeAt 350)
      (freshLine [true] [some "OK:1#".toList])).line.trace = ["!dome gotoaz 360.00#".toList] ∧
    wrap360 (350 + 10) = 0 ∧
    (MoveRel beaverHeader scriptedPort 400 (domeAt 350)
      (freshLine [true] [some "OK:1#".toList])).dome.targetRotatorAz = 390 ∧
    cmdsWritten (MoveRel beaverHeader scriptedPort 400 (domeAt 350)
      (freshLine [true] [some "OK:1#".toList])).line.trace = ["!dome gotoaz 390.00#".toList] := by
  rw [moveRel_350_10, moveRel_350_400]
  decide!

/-- C11, amended: with the range bounds 0 and 360, a current azimuth from 0 to
360 and an offset between -360 and 360, `MoveRel` stores the target in
`m_TargetRotatorAz` and passes it to `MoveAbs`; the target is the sum of current
azimuth and offset wrapped into the range from 0 (included) to 360 (excluded),
except that a sum of exactly 360 stays 360. -/
theorem moveRel_wraps {σ : Type} (H : Header) (P : Port σ) (azDiff : ℚ) (d : Dome) (l : Line σ)
    (hmin : d.domeAbsPosMin = 0) (hmax : d.domeAbsPosMax = 360)
    (h0 : 0 ≤ d.domeAbsPos) (h1 : d.domeAbsPos < 360) (h2 : -360 ≤ azDiff) (h3 : azDiff ≤ 360) :
    (d.domeAbsPos + azDiff ≠ 360 →
      MoveRel H P azDiff d l = MoveAbs H P (wrap360 (d.domeAbsPos + azDiff))
        { d with targetRotatorAz := wrap360 (d.domeAbsPos + azDiff) } l ∧
      0 ≤ wrap360 (d.domeAbsPos + azDiff) ∧ wrap360 (d.domeAbsPos + azDiff) < 360) ∧
    (d.domeAbsPos + azDiff = 360 →
      MoveRel H P azDiff d l = MoveAbs H P 360 { d with targetRotatorAz := 360 } l) := by
  constructor
  · intro hne
    refine ⟨?_, wrap360_range _⟩
    unfold MoveRel
    simp only [hmin, hmax]
    rw [moveRel_target (d.domeAbsPos + azDiff) (by linarith) (by linarith) hne]
  · intro he
    unfold MoveRel
    simp only [hmin, hmax, he]
    norm_num

/-- C11 amended, at the inputs of the claim: from 350 the offset +20 gives the
target 10, and from 10 the offset -20 gives the target 350. -/
theorem moveRel_wraps_witness :
    (MoveRel beaverHeader scriptedPort 20 (domeAt 350) (freshLine [true] [some "OK:1#".toList])
      = MoveAbs beaverHeader scriptedPort 10 { domeAt 350 with targetRotatorAz := 10 }
        (freshLine [true] [some "OK:1#".toList])) ∧
    (MoveRel beaverHeader scriptedPort (-20) (domeAt 10) (freshLine [true] [some "OK:1#".toList])
      = MoveAbs beaverHeader scriptedPort 350 { domeAt 10 with targetRotatorAz := 350 }
        (freshLine [true] [some "OK:1#".toList])) := by
  have e1 : wrap360 ((domeAt 350).domeAbsPos + 20) = 10 := by decide!
  have e2 : wrap360 ((domeAt 10).domeAbsPos + -20) = 350 := by decide!
  have h1 := ((moveRel_wraps beaverHeader scriptedPort 20 (domeAt 350) (freshLine [true] [some "OK:1#".toList])
    rfl rfl (by decide!) (by decide!) (by decide!) (by decide!)).1 (by decide!)).1
  have h2 := ((moveRel_wraps beaverHeader scriptedPort (-20) (domeAt 10)
    (freshLine [true] [some "OK:1#".toList]) rfl rfl (by decide!) (by decide!) (by decide!) (by decide!)).1
    (by decide!)).1
  rw [e1] at h1
  rw [e2] at h2
  exact ⟨h1, h2⟩

/-- C17: the motion commands set the intent state when they are issued, whatever
the state before and whatever the line does.  After `rotatorGotoAz` the rotator
is Moving (text "Moving"), after `rotatorGotoHome` it is Moving with the text
"Homing", after `rotatorGotoPark` it is Parking; the value returned is the
outcome of the command alone; and when the `gotoaz` command fails, `MoveAbs`
returns `IPS_ALERT` with the rotator still Moving. -/
theorem motion_commands_set_intent {σ : Type} (H : Header) (P : Port σ) (az : ℚ) (d : Dome)
    (l : Line σ) :
    ((rotatorGotoAz H P az d l).dome.domeState = DOME_MOVING ∧
      (rotatorGotoAz H P az d l).dome.rotatorStatus = "Moving" ∧
      (rotatorGotoAz H P az d l).ret
        = (sendCommand P (snprintf2f H "!dome gotoaz " az) 0 l).ok) ∧
    ((rotatorGotoHome P d l).dome.domeState = DOME_MOVING ∧
      (rotatorGotoHome P d l).dome.rotatorStatus = "Homing" ∧
      (rotatorGotoHome P d l).ret = (sendCommand P "!dome gohome#".toList 0 l).ok) ∧
    ((rotatorGotoPark P d l).dome.domeState = DOME_PARKING ∧
      (rotatorGotoPark P d l).dome.rotatorStatus = "Parking" ∧
      (rotatorGotoPark P d l).ret = (sendCommand P "!dome gopark#".toList 0 l).ok) ∧
    ((MoveAbs H P az d l).dome.domeState = DOME_MOVING ∧
      ((rotatorGotoAz H P az d l).ret = false → (MoveAbs H P az d l).ret = IPS_ALERT) ∧
      ((rotatorGotoAz H P az d l).ret = true → (MoveAbs H P az d l).ret = IPS_BUSY)) := by
  refine ⟨⟨rfl, rfl, rfl⟩, ⟨rfl, rfl, rfl⟩, ⟨rfl, rfl, rfl⟩, ?_, ?_, ?_⟩
  · unfold MoveAbs
    simp only
    split <;> rfl
  · intro h
    unfold MoveAbs
    simp only [h]
    rfl
  · intro h
    unfold MoveAbs
    simp only [h]
    rfl

/-- C17, at a concrete input: on a line where no read ever answers, issued from
the Error state, `rotatorGotoPark` returns `false` and leaves the rotator
Parking, and `MoveAbs` returns `IPS_ALERT` and leaves it Moving. -/
theorem motion_commands_set_intent_witness :
    (rotatorGotoPark deafPort (domeIn DOME_ERROR SHUTTER_UNKNOWN) ⟨(), []⟩).ret = false ∧
    (rotatorGotoPark deafPort (domeIn DOME_ERROR SHUTTER_UNKNOWN) ⟨(), []⟩).dome.domeState
      = DOME_PARKING ∧
    (MoveAbs beaverHeader deafPort 90 (domeIn DOME_ERROR SHUTTER_UNKNOWN) ⟨(), []⟩).ret
      = IPS_ALERT ∧
    (MoveAbs beaverHeader deafPort 90 (domeIn DOME_ERROR SHUTTER_UNKNOWN) ⟨(), []⟩).dome.domeState
      = DOME_MOVING :=
  have h := motion_commands_set_intent beaverHeader deafPort 90
    (domeIn DOME_ERROR SHUTTER_UNKNOWN) ⟨(), []⟩
  ⟨by decide!, h.2.2.1.1, h.2.2.2.2.1 (by decide!), h.2.2.2.1⟩

/-! ## The shutter presence probe -/

/-- C19: `shutterIsUp` returns exactly what the command `!dome shutterisup#`
returns and changes no member; the value parsed plays no part, so a response
carrying 0 and a response carrying 1 both yield `true`. -/
theorem shutterIsUp_is_command_outcome {σ : Type} (P : Port σ) (d : Dome) (l : Line σ) :
    ((shutterIsUp P d l).ret = (sendCommand P "!dome shutterisup#".toList 0 l).ok ∧
      (shutterIsUp P d l).dome = d ∧
      (shutterIsUp P d l).line = (sendCommand P "!dome shutterisup#".toList 0 l).line) ∧
    ((sendCommand scriptedPort "!dome shutterisup#".toList 0
        (freshLine [true] [some "OK:0#".toList])).res = 0 ∧
      (shutterIsUp scriptedPort d (freshLine [true] [some "OK:0#".toList])).ret = true) ∧
    ((sendCommand scriptedPort "!dome shutterisup#".toList 0
        (freshLine [true] [some "OK:1#".toList])).res = 1 ∧
      (shutterIsUp scriptedPort d (freshLine [true] [some "OK:1#".toList])).ret = true) := by
  have key : ∀ {τ : Type} (Q : Port τ) (m : Line τ),
      (shutterIsUp Q d m).ret = (sendCommand Q "!dome shutterisup#".toList 0 m).ok ∧
      (shutterIsUp Q d m).dome = d ∧
      (shutterIsUp Q d m).line = (sendCommand Q "!dome shutterisup#".toList 0 m).line := by
    intro τ Q m
    unfold shutterIsUp
    simp only
    split
    · rename_i h
      exact ⟨h.symm, rfl, rfl⟩
    · rename_i h
      exact ⟨(Bool.eq_false_iff.2 h).symm, rfl, rfl⟩
  refine ⟨key P l, ⟨by decide!, ?_⟩, ⟨by decide!, ?_⟩⟩
  · rw [(key scriptedPort _).1]; decide!
  · rw [(key scriptedPort _).1]; decide!

/-! ## What a command writes -/

theorem cmdsWritten_append (e1 e2 : List Event) :
    cmdsWritten (e1 ++ e2) = cmdsWritten e1 ++ cmdsWritten e2 := by
  induction e1 with
  | nil => rfl
  | cons e es ih =>
    cases e with
    | write c ok => simp [cmdsWritten, ih]
    | read f => simp [cmdsWritten, ih]

theorem newEvents_of_append {σ : Type} (a b : Line σ) (ev : List Event)
    (h : b.trace = a.trace ++ ev) : newEvents a b = ev := by
  unfold newEvents
  rw [h, List.drop_left]

/-- The writes of one call all carry its request string; there are at most as
many as iterations, and at least one when there is an iteration. -/
theorem sendCommandLoop_cmdsWritten {σ : Type} (P : Port σ) (cmd : Bytes) (n : Nat) (res : ℚ)
    (l : Line σ) :
    ∃ ev k, (sendCommandLoop P cmd n res l).line.trace = l.trace ++ ev ∧
      cmdsWritten ev = List.replicate k cmd ∧ k ≤ n ∧ (0 < n → 0 < k) := by
  induction n generalizing l with
  | zero => exact ⟨[], 0, by simp [sendCommandLoop], rfl, Nat.le_refl 0, fun h => h⟩
  | succ n ih =>
    rcases loop_cases P cmd n res l with ⟨e, _⟩ | ⟨e, _⟩ | ⟨⟨v, e⟩, _⟩ | ⟨e, _⟩
    · rw [e]
      exact ⟨_, 1, trace_afterWrite P cmd l, rfl, by omega, fun _ => by omega⟩
    · rw [e]
      obtain ⟨ev, k, h1, h2, h3, _⟩ := ih (afterRead P cmd l)
      refine ⟨[Event.write cmd (P.tty_write_string l.dev cmd).1,
        Event.read (frameRead P cmd l)] ++ ev, k + 1, ?_, ?_, by omega, fun _ => by omega⟩
      · rw [h1, trace_afterRead, List.append_assoc]
      · rw [cmdsWritten_append, h2]
        simp [cmdsWritten, List.replicate_succ]
    · rw [e]
      exact ⟨_, 1, trace_afterRead P cmd l, rfl, by omega, fun _ => by omega⟩
    · rw [e]
      exact ⟨_, 1, trace_afterRead P cmd l, rfl, by omega, fun _ => by omega⟩

theorem sendCommand_cmdsWritten {σ : Type} (P : Port σ) (cmd : Bytes) (res : ℚ) (l : Line σ) :
    ∃ ev k, (sendCommand P cmd res l).line.trace = l.trace ++ ev ∧
      cmdsWritten ev = List.replicate k cmd ∧ 1 ≤ k ∧ k ≤ 3 := by
  obtain ⟨ev, k, h1, h2, h3, h4⟩ := sendCommandLoop_cmdsWritten P cmd 3 res l
  exact ⟨ev, k, h1, h2, h4 (by decide), h3⟩

/-- Neither the outcome of a call nor the line it leaves depends on the value
`res` has on entry. -/
theorem sendCommandLoop_res_irrelevant {σ : Type} (P : Port σ) (cmd : Bytes) (n : Nat)
    (r r' : ℚ) (l : Line σ) :
    (sendCommandLoop P cmd n r l).ok = (sendCommandLoop P cmd n r' l).ok ∧
    (sendCommandLoop P cmd n r l).line = (sendCommandLoop P cmd n r' l).line := by
  induction n generalizing l with
  | zero => exact ⟨rfl, rfl⟩
  | succ n ih =>
    cases hw : (P.tty_write_string l.dev cmd).1 with
    | false => rw [loop_write_fail P cmd n r l hw, loop_write_fail P cmd n r' l hw]; exact ⟨rfl, rfl⟩
    | true =>
      cases hf : frameRead P cmd l with
      | none =>
        rw [loop_read_fail P cmd n r l hw hf, loop_read_fail P cmd n r' l hw hf]
        exact ih _
      | some f =>
        cases hm : regexSearch (inputOf f) with
        | none =>
          rw [loop_no_match P cmd n r l f hw hf hm, loop_no_match P cmd n r' l f hw hf hm]
          exact ih _
        | some tok =>
          cases hv : stof tok with
          | none =>
            rw [loop_throw P cmd n r l f tok hw hf hm hv, loop_throw P cmd n r' l f tok hw hf hm hv]
            exact ⟨rfl, rfl⟩
          | some v =>
            rw [loop_value P cmd n r l f tok v hw hf hm hv,
              loop_value P cmd n r' l f tok v hw hf hm hv]
            exact ⟨rfl, rfl⟩

theorem sendCommand_res_irrelevant {σ : Type} (P : Port σ) (cmd : Bytes) (r r' : ℚ) (l : Line σ) :
    (sendCommand P cmd r l).ok = (sendCommand P cmd r' l).ok ∧
    (sendCommand P cmd r l).line = (sendCommand P cmd r' l).line :=
  sendCommandLoop_res_irrelevant P cmd 3 r r' l

/-! ## Setters field by field -/

theorem sendFields_values_irrelevant {σ : Type} (P : Port σ) (cs cs' : List (Bytes × ℚ))
    (l : Line σ) (h : cs.map Prod.fst = cs'.map Prod.fst) :
    sendFields P cs l = sendFields P cs' l := by
  induction cs generalizing cs' l with
  | nil =>
    cases cs' with
    | nil => rfl
    | cons c cs' => simp at h
  | cons c cs ih =>
    cases cs' with
    | nil => simp at h
    | cons c' cs' =>
      obtain ⟨cmd, v⟩ := c
      obtain ⟨cmd', v'⟩ := c'
      simp only [List.map_cons, List.cons.injEq] at h
      obtain ⟨h1, h2⟩ := h
      subst h1
      obtain ⟨e1, e2⟩ := sendCommand_res_irrelevant P cmd v v' l
      unfold sendFields
      rw [e1, e2, ih cs' _ h2]

theorem sendFields_trace {σ : Type} (P : Port σ) (cs : List (Bytes × ℚ)) (l : Line σ) :
    ∃ ev, (sendFields P cs l).2.trace = l.trace ++ ev ∧
      ∀ c ∈ cmdsWritten ev, c ∈ cs.map Prod.fst := by
  induction cs generalizing l with
  | nil => exact ⟨[], by simp [sendFields], by simp [cmdsWritten]⟩
  | cons c cs ih =>
    obtain ⟨cmd, v⟩ := c
    obtain ⟨ev, k, h1, h2, _, _⟩ := sendCommand_cmdsWritten P cmd v l
    have hmem : ∀ c ∈ cmdsWritten ev, c = cmd := by
      intro c hc
      rw [h2] at hc
      exact (List.mem_replicate.1 hc).2
    unfold sendFields
    split
    · obtain ⟨ev2, h3, h4⟩ := ih (sendCommand P cmd v l).line
      refine ⟨ev ++ ev2, by rw [h3, h1, List.append_assoc], ?_⟩
      intro c hc
      rw [cmdsWritten_append, List.mem_append] at hc
      rcases hc with hc | hc
      · simp [hmem c hc]
      · simp [h4 c hc]
    · refine ⟨ev, h1, ?_⟩
      intro c hc
      simp [hmem c hc]

theorem dedup_replicate_append (c : Bytes) (k : Nat) (X : List Bytes) (hk : 0 < k)
    (hc : c ∉ X) : (List.replicate k c ++ X).dedup = c :: X.dedup := by
  induction k with
  | zero => omega
  | succ k ih =>
    rcases Nat.eq_zero_or_pos k with h0 | h0
    · subst h0
      simp only [List.replicate_succ, List.replicate_zero, List.nil_append, List.cons_append]
      exact List.dedup_cons_of_not_mem hc
    · rw [List.replicate_succ, List.cons_append, List.dedup_cons_of_mem, ih h0]
      rw [List.mem_append]
      exact Or.inl (List.mem_replicate.2 ⟨by omega, rfl⟩)

/-- The commands written by a first field and by the fields after it, without
repetitions. -/
theorem dedup_field_then_rest {σ : Type} (P : Port σ) (cmd : Bytes) (v : ℚ)
    (rest : List (Bytes × ℚ)) (l fin : Line σ) (ev2 : List Event)
    (hnd : cmd ∉ rest.map Prod.fst)
    (h2 : fin.trace = (sendCommand P cmd v l).line.trace ++ ev2)
    (hmem : ∀ c ∈ cmdsWritten ev2, c ∈ rest.map Prod.fst) :
    (cmdsWritten (newEvents l fin)).dedup = cmd :: (cmdsWritten ev2).dedup := by
  obtain ⟨ev, k, h1, hk, hk1, _⟩ := sendCommand_cmdsWritten P cmd v l
  rw [newEvents_of_append l fin (ev ++ ev2) (by rw [h2, h1, List.append_assoc]),
    cmdsWritten_append, hk]
  exact dedup_replicate_append cmd k _ (by omega) fun hc => hnd (hmem cmd hc)

/-- The first failure ends a sequence of fields: the result is `false`, the line
is the one the failing command left, and the commands written are the fields up
to the failing one, in order. -/
theorem sendFields_first_failure {σ : Type} (P : Port σ) (cs : List (Bytes × ℚ)) (l : Line σ)
    (hnd : (cs.map Prod.fst).Nodup) (k : Nat) (q : Reply σ)
    (hk : (replies P cs l)[k]? = some q) (hq : q.ok = false)
    (hpre : ∀ q' ∈ (replies P cs l).take k, q'.ok = true) :
    sendFields P cs l = (false, q.line) ∧
    (cmdsWritten (newEvents l (sendFields P cs l).2)).dedup = (cs.map Prod.fst).take (k + 1) := by
  induction cs generalizing l k with
  | nil => simp [replies] at hk
  | cons c cs ih =>
    obtain ⟨cmd, v⟩ := c
    simp only [List.map_cons, List.nodup_cons] at hnd
    cases k with
    | zero =>
      simp only [replies, List.getElem?_cons_zero, Option.some.injEq] at hk
      subst hk
      have hs : sendFields P ((cmd, v) :: cs) l = (false, (sendCommand P cmd v l).line) := by
        unfold sendFields
        rw [if_neg (by rw [hq]; decide)]
      rw [hs]
      refine ⟨rfl, ?_⟩
      have := dedup_field_then_rest P cmd v [] l (sendCommand P cmd v l).line [] (by simp)
        (by simp) (by simp [cmdsWritten])
      simpa [cmdsWritten] using this
    | succ k =>
      have hok : (sendCommand P cmd v l).ok = true :=
        hpre _ (by simp [replies])
      have hs : sendFields P ((cmd, v) :: cs) l = sendFields P cs (sendCommand P cmd v l).line := by
        conv_lhs => unfold sendFields
        rw [if_pos hok]
      simp only [replies, List.getElem?_cons_succ] at hk
      have hpre' : ∀ q' ∈ (replies P cs (sendCommand P cmd v l).line).take k, q'.ok = true := by
        intro q' hq'
        exact hpre q' (by simp [replies, hq'])
      obtain ⟨e1, e2⟩ := ih (sendCommand P cmd v l).line hnd.2 k hk hpre'
      rw [hs]
      refine ⟨e1, ?_⟩
      obtain ⟨ev2, h3, h4⟩ := sendFields_trace P cs (sendCommand P cmd v l).line
      rw [dedup_field_then_rest P cmd v cs l _ ev2 hnd.1 h3 h4]
      rw [newEvents_of_append _ _ ev2 h3] at e2
      rw [e2]
      rfl

/-- A sequence of fields returns `true` exactly when every command succeeds,
and then every field was written, in order. -/
theorem sendFields_success {σ : Type} (P : Port σ) (cs : List (Bytes × ℚ)) (l : Line σ)
    (hnd : (cs.map Prod.fst).Nodup) :
    ((sendFields P cs l).1 = true ↔ ∀ q ∈ replies P cs l, q.ok = true) ∧
    ((sendFields P cs l).1 = true →
      (cmdsWritten (newEvents l (sendFields P cs l).2)).dedup = cs.map Prod.fst) := by
  induction cs generalizing l with
  | nil =>
    refine ⟨by simp [sendFields, replies], fun _ => ?_⟩
    simp [sendFields, newEvents, cmdsWritten]
  | cons c cs ih =>
    obtain ⟨cmd, v⟩ := c
    simp only [List.map_cons, List.nodup_cons] at hnd
    cases hok : (sendCommand P cmd v l).ok with
    | false =>
      have hs : sendFields P ((cmd, v) :: cs) l = (false, (sendCommand P cmd v l).line) := by
        unfold sendFields
        rw [if_neg (by rw [hok]; decide)]
      rw [hs]
      refine ⟨⟨fun h => ?_, fun h => ?_⟩, fun h => ?_⟩
      · cases h
      · have := h (sendCommand P cmd v l) (by simp [replies])
        rw [hok] at this
        cases this
      · cases h
    | true =>
      have hs : sendFields P ((cmd, v) :: cs) l = sendFields P cs (sendCommand P cmd v l).line := by
        conv_lhs => unfold sendFields
        rw [if_pos hok]
      obtain ⟨e1, e2⟩ := ih (sendCommand P cmd v l).line hnd.2
      rw [hs]
      refine ⟨?_, fun h => ?_⟩
      · rw [e1]
        simp [replies, hok]
      · obtain ⟨ev2, h3, h4⟩ := sendFields_trace P cs (sendCommand P cmd v l).line
        rw [dedup_field_then_rest P cmd v cs l _ ev2 hnd.1 h3 h4]
        have := e2 h
        rw [newEvents_of_append _ _ ev2 h3] at this
        rw [this]
        rfl

theorem rotatorSetSettings_eq_sendFields {σ : Type} (P : Port σ) (a b c e : ℚ) (d : Dome)
    (l : Line σ) :
    rotatorSetSettings P a b c e d l =
      ⟨(sendFields P (rotatorSettingCmds.zip [a, b, c, e]) l).1, d,
        (sendFields P (rotatorSettingCmds.zip [a, b, c, e]) l).2⟩ := by
  unfold rotatorSetSettings
  simp only [rotatorSettingCmds, List.zip_cons_cons, List.zip_nil_right, sendFields]
  repeat' split
  all_goals simp_all

theorem shutterSetFields_eq_sendFields {σ : Type} (P : Port σ) (a b c e v : ℚ) (d : Dome)
    (l : Line σ) :
    shutterSetFields P a b c e v d l =
      ⟨(sendFields P (shutterSettingCmds.zip [a, b, c, e, v]) l).1, d,
        (sendFields P (shutterSettingCmds.zip [a, b, c, e, v]) l).2⟩ := by
  unfold shutterSetFields
  simp only [shutterSettingCmds, List.zip_cons_cons, List.zip_nil_right, sendFields]
  repeat' split
  all_goals simp_all

theorem shutterIsUp_eq {σ : Type} (P : Port σ) (d : Dome) (l : Line σ) :
    shutterIsUp P d l = ⟨(sendCommand P shutterProbeCmd 0 l).ok, d,
      (sendCommand P shutterProbeCmd 0 l).line⟩ := by
  unfold shutterIsUp shutterProbeCmd
  simp only
  split
  · rename_i h
    rw [h]
  · rename_i h
    rw [Bool.eq_false_iff.2 h]

theorem shutterIsUp_cmdsWritten {σ : Type} (P : Port σ) (d : Dome) (l : Line σ) :
    ∃ k, 1 ≤ k ∧ k ≤ 3 ∧
      cmdsWritten (newEvents l (shutterIsUp P d l).line) = List.replicate k shutterProbeCmd := by
  obtain ⟨ev, k, h1, h2, h3, h4⟩ := sendCommand_cmdsWritten P shutterProbeCmd 0 l
  rw [shutterIsUp_eq]
  exact ⟨k, h3, h4, by rw [newEvents_of_append l _ ev h1, h2]⟩

theorem newEvents_self {σ : Type} (l : Line σ) : newEvents l l = [] := by
  simp [newEvents]

/-- C14 as stated fails: on a line where no read ever answers the shutter is
not present (`shutterIsUp` returns `false`), `shutterSetSettings` returns
success, and yet the call has written the presence probe three times. -/
theorem shutterSetSettings_probe_counterexample :
    (shutterIsUp deafPort (domeIn DOME_IDLE SHUTTER_UNKNOWN) ⟨(), []⟩).ret = false ∧
    (shutterSetSettings deafPort 1 2 3 4 5 (domeIn DOME_IDLE SHUTTER_UNKNOWN) ⟨(), []⟩).ret
      = true ∧
    cmdsWritten (shutterSetSettings deafPort 1 2 3 4 5 (domeIn DOME_IDLE SHUTTER_UNKNOWN)
      ⟨(), []⟩).line.trace = [shutterProbeCmd, shutterProbeCmd, shutterProbeCmd] ∧
    writes (shutterSetSettings deafPort 1 2 3 4 5 (domeIn DOME_IDLE SHUTTER_UNKNOWN)
      ⟨(), []⟩).line.trace = 3 := by
  decide

/-- C14, amended: when the shutter is not present (the probe inside
`shutterSetSettings` fails), `shutterSetSettings` returns success for every
argument tuple, changes no member, and writes no settings command: the line it
leaves is the one the probe left, and all it has written are the one to three
attempts of the presence probe `!dome shutterisup#`. -/
theorem shutterSetSettings_absent {σ : Type} (P : Port σ) (a b c e v : ℚ) (d : Dome)
    (l : Line σ) (h : (shutterIsUp P d l).ret = false) :
    shutterSetSettings P a b c e v d l = ⟨true, d, (shutterIsUp P d l).line⟩ ∧
    ∃ k, 1 ≤ k ∧ k ≤ 3 ∧
      cmdsWritten (newEvents l (shutterSetSettings P a b c e v d l).line)
        = List.replicate k shutterProbeCmd := by
  have hs : shutterSetSettings P a b c e v d l = ⟨true, d, (shutterIsUp P d l).line⟩ := by
    unfold shutterSetSettings
    simp only [h, Bool.false_eq_true, if_false]
    rw [shutterIsUp_eq]
  rw [hs]
  exact ⟨rfl, shutterIsUp_cmdsWritten P d l⟩

/-- C14 amended, at a concrete input: on the line where no read ever answers,
`shutterSetSettings` returns `true` and leaves the line of the failed probe. -/
theorem shutterSetSettings_absent_witness :
    shutterSetSettings deafPort 1 2 3 4 5 (domeIn DOME_IDLE SHUTTER_UNKNOWN) ⟨(), []⟩
      = ⟨true, domeIn DOME_IDLE SHUTTER_UNKNOWN,
        (shutterIsUp deafPort (domeIn DOME_IDLE SHUTTER_UNKNOWN) ⟨(), []⟩).line⟩ :=
  (shutterSetSettings_absent deafPort 1 2 3 4 5 (domeIn DOME_IDLE SHUTTER_UNKNOWN) ⟨(), []⟩
    (by decide)).1

/-- C15: both setters send their fields one after another in the fixed order
(`rotatorSetSettings` the four of `rotatorSettingCmds`, `shutterSetSettings`
with the shutter present the five of `shutterSettingCmds`) and stop at the first
failure.  For every line behaviour: when the command at position `k` (counted
from 0) is the first whose reply is a failure, the setter returns `false`, the
line is the one that command left, and the commands written are the first
`k + 1` fields, in order and nothing after them; the setter returns `true`
exactly when every command succeeds, and then all fields were written. -/
theorem setSettings_fail_fast {σ : Type} (P : Port σ) (a b c e v : ℚ) (d : Dome) (l : Line σ) :
    (rotatorSetSettings P a b c e d l =
      ⟨(sendFields P (rotatorSettingCmds.zip [a, b, c, e]) l).1, d,
        (sendFields P (rotatorSettingCmds.zip [a, b, c, e]) l).2⟩) ∧
    ((shutterIsUp P d l).ret = true →
      shutterSetSettings P a b c e v d l =
        ⟨(sendFields P (shutterSettingCmds.zip [a, b, c, e, v]) (shutterIsUp P d l).line).1, d,
          (sendFields P (shutterSettingCmds.zip [a, b, c, e, v]) (shutterIsUp P d l).line).2⟩) ∧
    ((rotatorSettingCmds.zip [a, b, c, e]).map Prod.fst = rotatorSettingCmds ∧
      (shutterSettingCmds.zip [a, b, c, e, v]).map Prod.fst = shutterSettingCmds ∧
      rotatorSettingCmds.Nodup ∧ shutterSettingCmds.Nodup) ∧
    (∀ (cs : List (Bytes × ℚ)) (m : Line σ), (cs.map Prod.fst).Nodup →
      (∀ (k : Nat) (q : Reply σ), (replies P cs m)[k]? = some q → q.ok = false →
        (∀ q' ∈ (replies P cs m).take k, q'.ok = true) →
        sendFields P cs m = (false, q.line) ∧
        (cmdsWritten (newEvents m (sendFields P cs m).2)).dedup
          = (cs.map Prod.fst).take (k + 1)) ∧
      ((sendFields P cs m).1 = true ↔ ∀ q ∈ replies P cs m, q.ok = true) ∧
      ((sendFields P cs m).1 = true →
        (cmdsWritten (newEvents m (sendFields P cs m).2)).dedup = cs.map Prod.fst)) := by
  refine ⟨rotatorSetSettings_eq_sendFields P a b c e d l, fun h => ?_,
    ⟨by simp [rotatorSettingCmds], by simp [shutterSettingCmds], by decide, by decide⟩,
    fun cs m hnd => ⟨fun k q hk hq hpre => sendFields_first_failure P cs m hnd k q hk hq hpre,
      (sendFields_success P cs m hnd).1, (sendFields_success P cs m hnd).2⟩⟩
  unfold shutterSetSettings
  simp only [h, if_true]
  rw [shutterSetFields_eq_sendFields]
  rw [shutterIsUp_eq]

/-- C15, at a concrete input: the first field command is answered, the second
times out three times; `rotatorSetSettings` returns `false` and has written the
first two field commands and no other. -/
theorem setSettings_fail_fast_witness :
    (rotatorSetSettings scriptedPort 1 2 3 4 (domeIn DOME_IDLE SHUTTER_UNKNOWN)
      (freshLine [true, true, true, true, true] [some "OK:1#".toList])).ret = false ∧
    (cmdsWritten (newEvents (freshLine [true, true, true, true, true] [some "OK:1#".toList])
      (rotatorSetSettings scriptedPort 1 2 3 4 (domeIn DOME_IDLE SHUTTER_UNKNOWN)
        (freshLine [true, true, true, true, true] [some "OK:1#".toList])).line)).dedup
      = ["!domerot setmaxspeed#".toList, "!domerot setminspeed#".toList] := by
  have h := setSettings_fail_fast scriptedPort 1 2 3 4 5 (domeIn DOME_IDLE SHUTTER_UNKNOWN)
    (freshLine [true, true, true, true, true] [some "OK:1#".toList])
  have h2 := (h.2.2.2 (rotatorSettingCmds.zip [1, 2, 3, 4])
    (freshLine [true, true, true, true, true] [some "OK:1#".toList]) (by decide)).1 1
    (sendCommand scriptedPort "!domerot setminspeed#".toList 2
      (sendCommand scriptedPort "!domerot setmaxspeed#".toList 1
        (freshLine [true, true, true, true, true] [some "OK:1#".toList])).line)
    (by simp [rotatorSettingCmds, replies]) (by decide!) (by decide!)
  rw [h.1]
  dsimp only
  refine ⟨?_, ?_⟩
  · rw [h2.1]
  · rw [h2.2]
    simp [rotatorSettingCmds]

/-- C18: what the settings setters write does not depend on the values being
set.  For any two argument tuples and the same line, `rotatorSetSettings` leaves
the same line (device state and trace, so the same sequence of request strings)
and returns the same value, and so does `shutterSetSettings`.  Every request
string `rotatorSetSettings` writes is one of the four fixed strings of
`rotatorSettingCmds`; `shutterSetSettings` first writes the presence probe and
after it only fixed strings of `shutterSettingCmds`; and none of these strings
holds a digit. -/
theorem setSettings_bytes_independent {σ : Type} (P : Port σ) (a b c e v a' b' c' e' v' : ℚ)
    (d : Dome) (l : Line σ) :
    ((rotatorSetSettings P a b c e d l).line = (rotatorSetSettings P a' b' c' e' d l).line ∧
      (rotatorSetSettings P a b c e d l).ret = (rotatorSetSettings P a' b' c' e' d l).ret) ∧
    ((shutterSetSettings P a b c e v d l).line = (shutterSetSettings P a' b' c' e' v' d l).line ∧
      (shutterSetSettings P a b c e v d l).ret = (shutterSetSettings P a' b' c' e' v' d l).ret) ∧
    (∀ cmd ∈ cmdsWritten (newEvents l (rotatorSetSettings P a b c e d l).line),
      cmd ∈ rotatorSettingCmds) ∧
    (∀ cmd ∈ cmdsWritten (newEvents l (shutterIsUp P d l).line), cmd = shutterProbeCmd) ∧
    (∀ cmd ∈ cmdsWritten (newEvents (shutterIsUp P d l).line
        (shutterSetSettings P a b c e v d l).line), cmd ∈ shutterSettingCmds) ∧
    (∀ cmd ∈ shutterProbeCmd :: (rotatorSettingCmds ++ shutterSettingCmds),
      ∀ ch ∈ cmd, isDigit ch = false) := by
  have hr : sendFields P (rotatorSettingCmds.zip [a, b, c, e]) l
      = sendFields P (rotatorSettingCmds.zip [a', b', c', e']) l :=
    sendFields_values_irrelevant P _ _ l (by simp [rotatorSettingCmds])
  have hs : ∀ m : Line σ, sendFields P (shutterSettingCmds.zip [a, b, c, e, v]) m
      = sendFields P (shutterSettingCmds.zip [a', b', c', e', v']) m :=
    fun m => sendFields_values_irrelevant P _ _ m (by simp [shutterSettingCmds])
  have hshut : ∀ x1 x2 x3 x4 x5 : ℚ, shutterSetSettings P x1 x2 x3 x4 x5 d l =
      if (shutterIsUp P d l).ret = true then
        ⟨(sendFields P (shutterSettingCmds.zip [x1, x2, x3, x4, x5]) (shutterIsUp P d l).line).1,
          d, (sendFields P (shutterSettingCmds.zip [x1, x2, x3, x4, x5])
            (shutterIsUp P d l).line).2⟩
      else ⟨true, d, (shutterIsUp P d l).line⟩ := by
    intro x1 x2 x3 x4 x5
    unfold shutterSetSettings
    simp only
    split
    · rw [shutterSetFields_eq_sendFields, shutterIsUp_eq]
    · rw [shutterIsUp_eq]
  refine ⟨?_, ?_, ?_, ?_, ?_, by decide⟩
  · rw [rotatorSetSettings_eq_sendFields, rotatorSetSettings_eq_sendFields, hr]
    exact ⟨rfl, rfl⟩
  · rw [hshut, hshut, hs]
    exact ⟨rfl, rfl⟩
  · rw [rotatorSetSettings_eq_sendFields]
    obtain ⟨ev, h1, h2⟩ := sendFields_trace P (rotatorSettingCmds.zip [a, b, c, e]) l
    intro cmd hc
    rw [newEvents_of_append l _ ev h1] at hc
    simpa [rotatorSettingCmds] using h2 cmd hc
  · obtain ⟨k, _, _, hk⟩ := shutterIsUp_cmdsWritten P d l
    intro cmd hc
    rw [hk] at hc
    exact (List.mem_replicate.1 hc).2
  · rw [hshut]
    split
    · obtain ⟨ev, h1, h2⟩ := sendFields_trace P (shutterSettingCmds.zip [a, b, c, e, v])
        (shutterIsUp P d l).line
      intro cmd hc
      rw [newEvents_of_append _ _ ev h1] at hc
      simpa [shutterSettingCmds] using h2 cmd hc
    · intro cmd hc
      rw [newEvents_self] at hc
      simp [cmdsWritten] at hc

/-- C18, at a concrete input: on the same scripted line, which answers the first
two commands, `rotatorSetSettings` with the values 1, 2, 3, 4 and with the
values 800, 400, 500, 83 leaves the same trace. -/
theorem setSettings_bytes_independent_witness :
    (rotatorSetSettings scriptedPort 1 2 3 4 (domeIn DOME_IDLE SHUTTER_UNKNOWN)
      (freshLine [true, true, true] [some "OK:1#".toList, some "OK:2#".toList])).line.trace
    = (rotatorSetSettings scriptedPort 800 400 500 83 (domeIn DOME_IDLE SHUTTER_UNKNOWN)
      (freshLine [true, true, true] [some "OK:1#".toList, some "OK:2#".toList])).line.trace :=
  congrArg Line.trace (setSettings_bytes_independent scriptedPort 1 2 3 4 5 800 400 500 83 5
    (domeIn DOME_IDLE SHUTTER_UNKNOWN)
    (freshLine [true, true, true] [some "OK:1#".toList, some "OK:2#".toList])).1.1

end Beaver
